import Mathlib

/-!
# Todo / Category services: a shallow embedding

The Go packages `models`, `repository`, `services` and `handlers` of the todo
backend are embedded as pure Lean definitions.

* Go pointers to optional values (`*time.Time`, `*uint`, `*bool`, `*Category`)
  are `Option`s; `nil` is `none`.
* `uint` identifiers are `Nat`, `int` / `int64` are `Int` (the services do no
  arithmetic on them except the page-count computation, which is modelled on
  IEEE binary64 values).
* A repository is a record of operations over an explicit store state `σ`.
  An operation that receives a pointer to an entity and may write into it
  (`Create`, `Update`) returns the entity as the call left it.
* A Go `(value, error)` result is an `Except Error value`.
-/

set_option autoImplicit false

namespace TodoApp

/-! ## package models -/

/-- Go `time.Time`, as an instant on an integer time line; the zero value is `0`. -/
abbrev Time := Int

/-- Go `type Priority string`. -/
abbrev Priority := String

/-- Go `models.PriorityHigh`. -/
def PriorityHigh : Priority := "high"

/-- Go `models.PriorityMedium`. -/
def PriorityMedium : Priority := "medium"

/-- Go `models.PriorityLow`. -/
def PriorityLow : Priority := "low"

/-- Go `models.Category`. The `Todos` association slice is never loaded nor written
by any operation of the repository or the services (it stays `nil`), and is left
out of the record. -/
structure Category where
  ID : Nat
  Name : String
  Color : String
  CreatedAt : Time
  UpdatedAt : Time
  deriving DecidableEq, Repr

/-- Go `models.CreateCategoryRequest`. -/
structure CreateCategoryRequest where
  Name : String
  Color : String
  deriving DecidableEq, Repr

/-- Go `models.UpdateCategoryRequest`. -/
structure UpdateCategoryRequest where
  Name : String
  Color : String
  deriving DecidableEq, Repr

/-- Go `models.Todo`. -/
structure Todo where
  ID : Nat
  Title : String
  Description : String
  Completed : Bool
  Priority : Priority
  DueDate : Option Time
  CategoryID : Option Nat
  Category : Option Category
  CreatedAt : Time
  UpdatedAt : Time
  deriving DecidableEq, Repr

/-- Go `models.CreateTodoRequest`. -/
structure CreateTodoRequest where
  Title : String
  Description : String
  Priority : Priority
  DueDate : Option Time
  CategoryID : Option Nat
  deriving DecidableEq, Repr

/-- Go `models.UpdateTodoRequest`. -/
structure UpdateTodoRequest where
  Title : String
  Description : String
  Completed : Option Bool
  Priority : Priority
  DueDate : Option Time
  CategoryID : Option Nat
  deriving DecidableEq, Repr

/-- Go `models.TodoFilter`. -/
structure TodoFilter where
  Search : String
  CategoryID : Option Nat
  Completed : Option Bool
  Priority : Priority
  Page : Int
  Limit : Int
  SortBy : String
  SortOrder : String
  deriving DecidableEq, Repr

/-- Go `models.Pagination`. -/
structure Pagination where
  CurrentPage : Int
  PerPage : Int
  Total : Int
  TotalPages : Int
  deriving DecidableEq, Repr

/-- Go `models.PaginatedResponse`; `Data` always holds the `[]models.Todo` returned
by the repository. -/
structure PaginatedResponse where
  Data : List Todo
  Pagination : Pagination
  deriving DecidableEq, Repr

/-- The zero value of `models.Todo` (what `&models.Todo{}` holds before any field
is set). -/
def Todo.zero : Todo :=
  { ID := 0, Title := "", Description := "", Completed := false, Priority := "",
    DueDate := none, CategoryID := none, Category := none, CreatedAt := 0, UpdatedAt := 0 }

/-- The zero value of `models.Category`. -/
def Category.zero : Category :=
  { ID := 0, Name := "", Color := "", CreatedAt := 0, UpdatedAt := 0 }

/-! ## Go `error` values -/

/-- The `error` values that flow through the services: the five sentinels
declared with `errors.New` in package `services`, and any other error (what the
storage layer produces), identified by its message. -/
inductive Error where
  | ErrTodoNotFound
  | ErrTodoTitleRequired
  | ErrInvalidPriority
  | ErrCategoryNotFound
  | ErrCategoryNameRequired
  | storage (msg : String)
  deriving DecidableEq, Repr

open Error

deriving instance DecidableEq for Except

/-! ## package repository: the interfaces -/

/-- Go `repository.TodoRepository`, over a store state `σ`. Every method may read
and change the store. `Create` and `Update` receive a pointer: on success they
return the entity as the call left it. -/
structure TodoRepository (σ : Type) where
  Create : Todo → σ → Except Error Todo × σ
  GetAll : TodoFilter → σ → Except Error (List Todo × Int) × σ
  GetByID : Nat → σ → Except Error Todo × σ
  Update : Todo → σ → Except Error Todo × σ
  Delete : Nat → σ → Except Error Unit × σ

/-- Go `repository.CategoryRepository`, over a store state `σ`. -/
structure CategoryRepository (σ : Type) where
  Create : Category → σ → Except Error Category × σ
  GetAll : σ → Except Error (List Category) × σ
  GetByID : Nat → σ → Except Error Category × σ
  Update : Category → σ → Except Error Category × σ
  Delete : Nat → σ → Except Error Unit × σ

/-! ## IEEE-754 binary64 arithmetic used by the page count -/

/-- Round a rational to the nearest integer, ties to the even one. -/
def roundHalfEven (m : ℚ) : Int :=
  let f := ⌊m⌋
  let r := m - f
  if r < 1 / 2 then f else if 1 / 2 < r then f + 1 else if f % 2 = 0 then f else f + 1

/-- The binary64 value nearest to `q` (round to nearest, ties to even), for `q`
in the normal range: with `e = ⌊log₂ |q|⌋` the representable values around `q`
are the multiples of `2 ^ (e - 52)`. Every value rounded by the page-count
computation is `0` or has magnitude between `1 / 100` and `2 ^ 63`, so neither
subnormals nor overflow occur. -/
def roundFloat64 (q : ℚ) : ℚ :=
  if q = 0 then 0
  else
    let ulp : ℚ := (2 : ℚ) ^ (Int.log 2 |q| - 52)
    (roundHalfEven (q / ulp) : ℚ) * ulp

/-- The conversion `float64(n)` of an integer. -/
def float64OfInt (n : Int) : ℚ := roundFloat64 (n : ℚ)

/-- The binary64 quotient `x / y` (for `y ≠ 0`). -/
def float64Div (x y : ℚ) : ℚ := roundFloat64 (x / y)

/-- Go `math.Ceil` is exact on binary64 values. -/
def mathCeil (x : ℚ) : ℚ := (⌈x⌉ : Int)

/-- The conversion `int(x)` of a binary64 value: the fraction is discarded
(truncation toward zero). A value outside the `int64` range has no portable
result in Go; the x86-64 one (the minimum integer) is used. -/
def intOfFloat64 (x : ℚ) : Int :=
  let t : Int := if 0 ≤ x then ⌊x⌋ else ⌈x⌉
  if -(2 : Int) ^ 63 ≤ t ∧ t < (2 : Int) ^ 63 then t else -(2 : Int) ^ 63

/-! ## package services: todo -/

/-- Go `isValidPriority`. -/
def isValidPriority (p : Priority) : Bool :=
  p == PriorityHigh || p == PriorityMedium || p == PriorityLow

/-- Go `todoService.Create`. -/
def todoService.Create {σ : Type} (repo : TodoRepository σ) (req : CreateTodoRequest)
    (s : σ) : Except Error Todo × σ :=
  if req.Title = "" then (.error ErrTodoTitleRequired, s)
  else if req.Priority ≠ "" ∧ isValidPriority req.Priority = false then
    (.error ErrInvalidPriority, s)
  else
    let todo : Todo :=
      { Todo.zero with
        Title := req.Title, Description := req.Description, Priority := req.Priority,
        DueDate := req.DueDate, CategoryID := req.CategoryID }
    let todo : Todo :=
      if todo.Priority = "" then { todo with Priority := PriorityMedium } else todo
    match repo.Create todo s with
    | (.error err, s1) => (.error err, s1)
    | (.ok todo, s1) => repo.GetByID todo.ID s1

/-- The pagination defaults applied at the head of `todoService.GetAll`. -/
def normalizeFilter (filter : TodoFilter) : TodoFilter :=
  let filter := if filter.Page ≤ 0 then { filter with Page := 1 } else filter
  let filter := if filter.Limit ≤ 0 then { filter with Limit := 10 } else filter
  let filter := if filter.Limit > 100 then { filter with Limit := 100 } else filter
  filter

/-- The expression `int(math.Ceil(float64(total) / float64(filter.Limit)))`. -/
def totalPages (total limit : Int) : Int :=
  intOfFloat64 (mathCeil (float64Div (float64OfInt total) (float64OfInt limit)))

/-- Go `todoService.GetAll`. -/
def todoService.GetAll {σ : Type} (repo : TodoRepository σ) (filter : TodoFilter)
    (s : σ) : Except Error PaginatedResponse × σ :=
  let filter := normalizeFilter filter
  match repo.GetAll filter s with
  | (.error err, s1) => (.error err, s1)
  | (.ok (todos, total), s1) =>
    (.ok { Data := todos,
           Pagination :=
             { CurrentPage := filter.Page, PerPage := filter.Limit, Total := total,
               TotalPages := totalPages total filter.Limit } }, s1)

/-- Go `todoService.GetByID`. -/
def todoService.GetByID {σ : Type} (repo : TodoRepository σ) (id : Nat)
    (s : σ) : Except Error Todo × σ :=
  match repo.GetByID id s with
  | (.error _, s1) => (.error ErrTodoNotFound, s1)
  | (.ok todo, s1) => (.ok todo, s1)

/-- The field-by-field merge of `todoService.Update`, between the lookup and the
call of the repository: `none` when the priority check fails. -/
def applyTodoUpdate (todo : Todo) (req : UpdateTodoRequest) : Option Todo :=
  let todo := if req.Title ≠ "" then { todo with Title := req.Title } else todo
  let todo := if req.Description ≠ "" then { todo with Description := req.Description } else todo
  let todo :=
    match req.Completed with
    | some c => { todo with Completed := c }
    | none => todo
  if req.Priority ≠ "" ∧ isValidPriority req.Priority = false then none
  else
    let todo := if req.Priority ≠ "" then { todo with Priority := req.Priority } else todo
    let todo :=
      match req.DueDate with
      | some d => { todo with DueDate := some d }
      | none => todo
    let todo :=
      match req.CategoryID with
      | some c => { todo with CategoryID := some c }
      | none => todo
    some todo

/-- Go `todoService.Update`. -/
def todoService.Update {σ : Type} (repo : TodoRepository σ) (id : Nat)
    (req : UpdateTodoRequest) (s : σ) : Except Error Todo × σ :=
  match repo.GetByID id s with
  | (.error _, s1) => (.error ErrTodoNotFound, s1)
  | (.ok todo, s1) =>
    match applyTodoUpdate todo req with
    | none => (.error ErrInvalidPriority, s1)
    | some todo =>
      match repo.Update todo s1 with
      | (.error err, s2) => (.error err, s2)
      | (.ok todo, s2) => repo.GetByID todo.ID s2

/-- Go `todoService.Delete`. -/
def todoService.Delete {σ : Type} (repo : TodoRepository σ) (id : Nat)
    (s : σ) : Except Error Unit × σ :=
  match repo.GetByID id s with
  | (.error _, s1) => (.error ErrTodoNotFound, s1)
  | (.ok _, s1) => repo.Delete id s1

/-- Go `todoService.ToggleComplete`. -/
def todoService.ToggleComplete {σ : Type} (repo : TodoRepository σ) (id : Nat)
    (s : σ) : Except Error Todo × σ :=
  match repo.GetByID id s with
  | (.error _, s1) => (.error ErrTodoNotFound, s1)
  | (.ok todo, s1) =>
    let todo := { todo with Completed := !todo.Completed }
    match repo.Update todo s1 with
    | (.error err, s2) => (.error err, s2)
    | (.ok todo, s2) => (.ok todo, s2)

/-! ## package services: category -/

/-- Go `categoryService.Create`. -/
def categoryService.Create {σ : Type} (repo : CategoryRepository σ)
    (req : CreateCategoryRequest) (s : σ) : Except Error Category × σ :=
  if req.Name = "" then (.error ErrCategoryNameRequired, s)
  else
    let category : Category := { Category.zero with Name := req.Name, Color := req.Color }
    let category : Category :=
      if category.Color = "" then { category with Color := "#3B82F6" } else category
    match repo.Create category s with
    | (.error err, s1) => (.error err, s1)
    | (.ok category, s1) => (.ok category, s1)

/-- Go `categoryService.GetAll`. -/
def categoryService.GetAll {σ : Type} (repo : CategoryRepository σ)
    (s : σ) : Except Error (List Category) × σ :=
  repo.GetAll s

/-- Go `categoryService.GetByID`. -/
def categoryService.GetByID {σ : Type} (repo : CategoryRepository σ) (id : Nat)
    (s : σ) : Except Error Category × σ :=
  match repo.GetByID id s with
  | (.error _, s1) => (.error ErrCategoryNotFound, s1)
  | (.ok category, s1) => (.ok category, s1)

/-- The merge of `categoryService.Update` between the lookup and the call of the
repository. -/
def applyCategoryUpdate (category : Category) (req : UpdateCategoryRequest) : Category :=
  let category := if req.Name ≠ "" then { category with Name := req.Name } else category
  let category := if req.Color ≠ "" then { category with Color := req.Color } else category
  category

/-- Go `categoryService.Update`. -/
def categoryService.Update {σ : Type} (repo : CategoryRepository σ) (id : Nat)
    (req : UpdateCategoryRequest) (s : σ) : Except Error Category × σ :=
  match repo.GetByID id s with
  | (.error _, s1) => (.error ErrCategoryNotFound, s1)
  | (.ok category, s1) =>
    let category := applyCategoryUpdate category req
    match repo.Update category s1 with
    | (.error err, s2) => (.error err, s2)
    | (.ok category, s2) => (.ok category, s2)

/-- Go `categoryService.Delete`. -/
def categoryService.Delete {σ : Type} (repo : CategoryRepository σ) (id : Nat)
    (s : σ) : Except Error Unit × σ :=
  match repo.GetByID id s with
  | (.error _, s1) => (.error ErrCategoryNotFound, s1)
  | (.ok _, s1) => repo.Delete id s1

/-! ## Observing the calls a service makes

A repository wrapped by `recording` behaves as the wrapped one and appends every
call it receives, with its argument, to a journal kept next to the store (what
the test doubles of the service tests do). -/

/-- A call received by a `TodoRepository`. -/
inductive TodoCall where
  | Create (todo : Todo)
  | GetAll (filter : TodoFilter)
  | GetByID (id : Nat)
  | Update (todo : Todo)
  | Delete (id : Nat)
  deriving DecidableEq, Repr

/-- A call received by a `CategoryRepository`. -/
inductive CategoryCall where
  | Create (category : Category)
  | GetAll
  | GetByID (id : Nat)
  | Update (category : Category)
  | Delete (id : Nat)
  deriving DecidableEq, Repr

/-- The todo repository `repo`, journalling its calls. -/
def TodoRepository.recording {σ : Type} (repo : TodoRepository σ) :
    TodoRepository (σ × List TodoCall) :=
  { Create := fun todo s =>
      ((repo.Create todo s.1).1, ((repo.Create todo s.1).2, s.2 ++ [TodoCall.Create todo]))
    GetAll := fun filter s =>
      ((repo.GetAll filter s.1).1, ((repo.GetAll filter s.1).2, s.2 ++ [TodoCall.GetAll filter]))
    GetByID := fun id s =>
      ((repo.GetByID id s.1).1, ((repo.GetByID id s.1).2, s.2 ++ [TodoCall.GetByID id]))
    Update := fun todo s =>
      ((repo.Update todo s.1).1, ((repo.Update todo s.1).2, s.2 ++ [TodoCall.Update todo]))
    Delete := fun id s =>
      ((repo.Delete id s.1).1, ((repo.Delete id s.1).2, s.2 ++ [TodoCall.Delete id])) }

/-- The category repository `repo`, journalling its calls. -/
def CategoryRepository.recording {σ : Type} (repo : CategoryRepository σ) :
    CategoryRepository (σ × List CategoryCall) :=
  { Create := fun category s =>
      ((repo.Create category s.1).1,
        ((repo.Create category s.1).2, s.2 ++ [CategoryCall.Create category]))
    GetAll := fun s =>
      ((repo.GetAll s.1).1, ((repo.GetAll s.1).2, s.2 ++ [CategoryCall.GetAll]))
    GetByID := fun id s =>
      ((repo.GetByID id s.1).1, ((repo.GetByID id s.1).2, s.2 ++ [CategoryCall.GetByID id]))
    Update := fun category s =>
      ((repo.Update category s.1).1,
        ((repo.Update category s.1).2, s.2 ++ [CategoryCall.Update category]))
    Delete := fun id s =>
      ((repo.Delete id s.1).1, ((repo.Delete id s.1).2, s.2 ++ [CategoryCall.Delete id])) }

/-- The repository returns none of the sentinel errors of package `services`:
every error it reports is a storage error. (Package `repository` cannot name the
sentinels, which are declared in a package that imports it.) -/
def TodoRepository.StorageErrorsOnly {σ : Type} (repo : TodoRepository σ) : Prop :=
  (∀ todo s err, (repo.Create todo s).1 = .error err → ∃ msg, err = Error.storage msg) ∧
  (∀ filter s err, (repo.GetAll filter s).1 = .error err → ∃ msg, err = Error.storage msg) ∧
  (∀ id s err, (repo.GetByID id s).1 = .error err → ∃ msg, err = Error.storage msg) ∧
  (∀ todo s err, (repo.Update todo s).1 = .error err → ∃ msg, err = Error.storage msg) ∧
  (∀ id s err, (repo.Delete id s).1 = .error err → ∃ msg, err = Error.storage msg)

/-! ## package repository: the implementations over the relational store -/

/-- Modelled from the spec: the relational store reached through the ORM handle
`*gorm.DB` (library code, outside the sources): the rows of tables `todos` and
`categories`, the last identifier handed out in each table, and the reading of
the clock that stamps new rows. A todo row carries no loaded association
(`Category = none`). Constraint violations are not modelled: the tables accept
every row. -/
structure DB where
  todos : List Todo
  categories : List Category
  todoSeq : Nat
  categorySeq : Nat
  now : Time
  deriving DecidableEq, Repr

/-- Modelled from the spec: the part of a query that the database engine
evaluates from SQL text composed by `todoRepository.GetAll`: the `ILIKE`
operator (`ilike text pattern`) and the `ORDER BY` clause, which fails on a
clause the engine rejects. -/
structure QueryEngine where
  ilike : String → String → Bool
  orderBy : String → List Todo → Option (List Todo)

/-- Modelled from the spec: `Preload("Category")`, which fills the `Category`
association of a todo from the row its `CategoryID` refers to, when there is one. -/
def DB.preloadCategory (db : DB) (todo : Todo) : Todo :=
  match todo.CategoryID with
  | none => { todo with Category := none }
  | some cid => { todo with Category := db.categories.find? (fun c => c.ID == cid) }

/-- Modelled from the spec: `db.Create(todo)`, "persists and assigns identifier +
timestamps". -/
def DB.createTodo (todo : Todo) (db : DB) : Except Error Todo × DB :=
  let todo := { todo with ID := db.todoSeq + 1, CreatedAt := db.now, UpdatedAt := db.now }
  (.ok todo,
    { db with todos := db.todos ++ [{ todo with Category := none }], todoSeq := db.todoSeq + 1 })

/-- Modelled from the spec: `db.First(&todo, id)`, which "returns the entity ...
or fails with a not-found error if absent". -/
def DB.firstTodo (id : Nat) (db : DB) : Except Error Todo :=
  match db.todos.find? (fun t => t.ID == id) with
  | none => .error (Error.storage "record not found")
  | some todo => .ok todo

/-- Modelled from the spec: `db.Save(todo)`, "full-row upsert of the given
(already-merged) entity state": the row with the entity's identifier is replaced,
or the entity is added when no row has it. -/
def DB.saveTodo (todo : Todo) (db : DB) : Except Error Todo × DB :=
  let row := { todo with Category := none }
  if db.todos.any (fun t => t.ID == todo.ID) then
    (.ok todo, { db with todos := db.todos.map (fun t => if t.ID == todo.ID then row else t) })
  else
    (.ok todo, { db with todos := db.todos ++ [row] })

/-- Modelled from the spec: `db.Delete(&models.Todo{}, id)`, "removes the row by
identifier"; deleting no row is not an error of the gateway. -/
def DB.deleteTodo (id : Nat) (db : DB) : Except Error Unit × DB :=
  (.ok (), { db with todos := db.todos.filter (fun t => !(t.ID == id)) })

/-- Modelled from the spec: `db.Create(category)`. -/
def DB.createCategory (category : Category) (db : DB) : Except Error Category × DB :=
  let category :=
    { category with ID := db.categorySeq + 1, CreatedAt := db.now, UpdatedAt := db.now }
  (.ok category,
    { db with categories := db.categories ++ [category], categorySeq := db.categorySeq + 1 })

/-- Modelled from the spec: `db.First(&category, id)`. -/
def DB.firstCategory (id : Nat) (db : DB) : Except Error Category :=
  match db.categories.find? (fun c => c.ID == id) with
  | none => .error (Error.storage "record not found")
  | some category => .ok category

/-- Modelled from the spec: `db.Save(category)`, a full-row upsert. -/
def DB.saveCategory (category : Category) (db : DB) : Except Error Category × DB :=
  if db.categories.any (fun c => c.ID == category.ID) then
    (.ok category,
      { db with
        categories := db.categories.map (fun c => if c.ID == category.ID then category else c) })
  else
    (.ok category, { db with categories := db.categories ++ [category] })

/-- Modelled from the spec: `db.Delete(&models.Category{}, id)`. -/
def DB.deleteCategory (id : Nat) (db : DB) : Except Error Unit × DB :=
  (.ok (), { db with categories := db.categories.filter (fun c => !(c.ID == id)) })

/-- An item of a SQL `LIKE` pattern: `%` (any run of characters, the empty one
included), `_` (exactly one character), a character standing for itself, or
the lone backslash that ends an ill-formed pattern. -/
inductive LikeToken where
  | anyRun
  | anyOne
  | lit (c : Char)
  | invalid
  deriving DecidableEq, Repr

/-- The item that a pattern character outside an escape stands for. -/
def LikeToken.ofChar (c : Char) : LikeToken :=
  if c = '%' then .anyRun
  else if c = '_' then .anyOne
  else if c = '\\' then .invalid
  else .lit c

/-- Modelled from the spec: the items of a SQL `LIKE` pattern. A backslash makes
the character after it stand for itself. -/
def likeTokens : List Char → List LikeToken
  | [] => []
  | [c] => [LikeToken.ofChar c]
  | c :: d :: rest =>
    if c = '\\' then .lit d :: likeTokens rest else LikeToken.ofChar c :: likeTokens (d :: rest)

/-- Modelled from the spec: whether a text matches the items of a `LIKE` pattern.
A pattern that ends in a lone backslash is rejected by the database; it matches
nothing here, and `todoRepository.GetAll` never builds one, since its patterns
end in `%`. -/
def matchTokens : List LikeToken → List Char → Bool
  | [], text => text.isEmpty
  | .anyRun :: tokens, text => text.tails.any (fun rest => matchTokens tokens rest)
  | .anyOne :: _, [] => false
  | .anyOne :: tokens, _ :: rest => matchTokens tokens rest
  | .lit _ :: _, [] => false
  | .lit c :: tokens, d :: rest => c == d && matchTokens tokens rest
  | .invalid :: _, _ => false

/-- Modelled from the spec: the SQL operator `LIKE` on the characters of a
pattern and of a text. -/
def likeMatch (pattern text : List Char) : Bool :=
  matchTokens (likeTokens pattern) text

/-- Modelled from the spec: the SQL operator `ILIKE`, which is `LIKE` without
regard to case: text and pattern are compared lower-cased. Lower-casing is that
of the ASCII letters; what the database does to other letters depends on its
locale. -/
def sqlILike (text pattern : String) : Bool :=
  likeMatch (pattern.toList.map Char.toLower) (text.toList.map Char.toLower)

/-- The value of a Go `int` held in 64 bits: arithmetic wraps around. -/
def wrapInt64 (n : Int) : Int := (n + 2 ^ 63) % 2 ^ 64 - 2 ^ 63

/-- The `WHERE` conditions accumulated by `todoRepository.GetAll`. -/
def todoMatches (q : QueryEngine) (filter : TodoFilter) (t : Todo) : Bool :=
  (if filter.Search ≠ "" then
      q.ilike t.Title ("%" ++ filter.Search ++ "%") ||
        q.ilike t.Description ("%" ++ filter.Search ++ "%")
    else true) &&
  (match filter.CategoryID with
    | some cid => t.CategoryID == some cid
    | none => true) &&
  (match filter.Completed with
    | some c => t.Completed == c
    | none => true) &&
  (if filter.Priority ≠ "" then t.Priority == filter.Priority else true)

/-- Go `todoRepository.Create`. -/
def todoRepository.Create (todo : Todo) (db : DB) : Except Error Todo × DB :=
  DB.createTodo todo db

/-- Go `todoRepository.GetAll`. The count is taken before ordering and paging. The
ORM emits `OFFSET` only for a positive offset, and `LIMIT` here is positive. -/
def todoRepository.GetAll (q : QueryEngine) (filter : TodoFilter) (db : DB) :
    Except Error (List Todo × Int) × DB :=
  let query := db.todos.filter (todoMatches q filter)
  let total : Int := query.length
  let sortBy := if filter.SortBy = "" then "created_at" else filter.SortBy
  let sortOrder := if filter.SortOrder = "" then "DESC" else filter.SortOrder
  match q.orderBy (sortBy ++ " " ++ sortOrder) query with
  | none => (.error (Error.storage "invalid ORDER BY clause"), db)
  | some query =>
    let query :=
      if filter.Limit > 0 then
        let offset := wrapInt64 (wrapInt64 (filter.Page - 1) * filter.Limit)
        (query.drop offset.toNat).take filter.Limit.toNat
      else query
    (.ok (query.map db.preloadCategory, total), db)

/-- Go `todoRepository.GetByID`. -/
def todoRepository.GetByID (id : Nat) (db : DB) : Except Error Todo × DB :=
  match DB.firstTodo id db with
  | .error err => (.error err, db)
  | .ok todo => (.ok (db.preloadCategory todo), db)

/-- Go `todoRepository.Update`. -/
def todoRepository.Update (todo : Todo) (db : DB) : Except Error Todo × DB :=
  DB.saveTodo todo db

/-- Go `todoRepository.Delete`. -/
def todoRepository.Delete (id : Nat) (db : DB) : Except Error Unit × DB :=
  DB.deleteTodo id db

/-- Go `NewTodoRepository(db)`: the `TodoRepository` implemented by `todoRepository`. -/
def NewTodoRepository (q : QueryEngine) : TodoRepository DB :=
  { Create := todoRepository.Create
    GetAll := todoRepository.GetAll q
    GetByID := todoRepository.GetByID
    Update := todoRepository.Update
    Delete := todoRepository.Delete }

/-- Go `categoryRepository.Create`. -/
def categoryRepository.Create (category : Category) (db : DB) : Except Error Category × DB :=
  DB.createCategory category db

/-- Go `categoryRepository.GetAll`: `db.Order("name ASC").Find(&categories)`. The
collation that orders names belongs to the database; the rows are returned in
the order `sortByName` gives them. -/
def categoryRepository.GetAll (sortByName : List Category → List Category) (db : DB) :
    Except Error (List Category) × DB :=
  (.ok (sortByName db.categories), db)

/-- Go `categoryRepository.GetByID`. -/
def categoryRepository.GetByID (id : Nat) (db : DB) : Except Error Category × DB :=
  match DB.firstCategory id db with
  | .error err => (.error err, db)
  | .ok category => (.ok category, db)

/-- Go `categoryRepository.Update`. -/
def categoryRepository.Update (category : Category) (db : DB) : Except Error Category × DB :=
  DB.saveCategory category db

/-- Go `categoryRepository.Delete`. -/
def categoryRepository.Delete (id : Nat) (db : DB) : Except Error Unit × DB :=
  DB.deleteCategory id db

/-- Go `NewCategoryRepository(db)`. -/
def NewCategoryRepository (sortByName : List Category → List Category) :
    CategoryRepository DB :=
  { Create := categoryRepository.Create
    GetAll := categoryRepository.GetAll sortByName
    GetByID := categoryRepository.GetByID
    Update := categoryRepository.Update
    Delete := categoryRepository.Delete }

/-- A query engine for examples: `ILIKE` as `sqlILike`, and an `ORDER BY` that
keeps the order of the table. -/
def exampleEngine : QueryEngine :=
  { ilike := sqlILike
    orderBy := fun _ rows => some rows }

/-- A store for examples: one category and two todos. -/
def exampleDB : DB :=
  { todos :=
      [ { ID := 1, Title := "Buy milk", Description := "", Completed := false,
          Priority := "medium", DueDate := none, CategoryID := some 1, Category := none,
          CreatedAt := 5, UpdatedAt := 5 },
        { ID := 2, Title := "Write report", Description := "quarterly", Completed := true,
          Priority := "high", DueDate := some 20, CategoryID := none, Category := none,
          CreatedAt := 6, UpdatedAt := 7 } ]
    categories :=
      [ { ID := 1, Name := "Home", Color := "#3B82F6", CreatedAt := 1, UpdatedAt := 1 } ]
    todoSeq := 2
    categorySeq := 1
    now := 10 }



/-- Todo 1 of the example store as `GetByID` returns it, its category loaded. -/
def exampleTodo : Todo :=
  { ID := 1, Title := "Buy milk", Description := "", Completed := false, Priority := "medium",
    DueDate := none, CategoryID := some 1,
    Category := some { ID := 1, Name := "Home", Color := "#3B82F6", CreatedAt := 1, UpdatedAt := 1 },
    CreatedAt := 5, UpdatedAt := 5 }

/-- The `MockTodoRepository` of the service tests, set up with
`On("GetAll", ...).Return(todos, total, nil)`: `GetAll` answers every filter with
the configured rows and count and leaves the (trivial) state alone; no other call
is expected, and one is answered with an error. -/
def MockTodoRepository (todos : List Todo) (total : Int) : TodoRepository Unit :=
  { Create := fun _ s => (.error (Error.storage "unexpected call"), s)
    GetAll := fun _ s => (.ok (todos, total), s)
    GetByID := fun _ s => (.error (Error.storage "unexpected call"), s)
    Update := fun _ s => (.error (Error.storage "unexpected call"), s)
    Delete := fun _ s => (.error (Error.storage "unexpected call"), s) }

/-- The `MockTodoRepository` of the service tests with an expectation set for
each of `Create`, `GetByID`, `Update` and `Delete`: the error each returns (`none`
for `nil`) and, for `GetByID`, the entity or the error per identifier. As in the
test file, a `Create` that returns `nil` sets the identifier of the entity to 1
and stamps it. `GetAll` is not expected. -/
structure MockExpectations where
  create : Option Error
  getByID : Nat → Except Error Todo
  update : Option Error
  delete : Option Error
  now : Time

/-- The repository that `MockExpectations` describe. -/
def scriptedTodoRepository (m : MockExpectations) : TodoRepository Unit :=
  { Create := fun todo s =>
      match m.create with
      | some err => (.error err, s)
      | none => (.ok { todo with ID := 1, CreatedAt := m.now, UpdatedAt := m.now }, s)
    GetAll := fun _ s => (.error (Error.storage "unexpected call"), s)
    GetByID := fun id s => (m.getByID id, s)
    Update := fun todo s =>
      match m.update with
      | some err => (.error err, s)
      | none => (.ok todo, s)
    Delete := fun _ s =>
      match m.delete with
      | some err => (.error err, s)
      | none => (.ok (), s) }

/-! ## package services: the interface -/

/-- Go `err.Error()`: the message of an error. -/
def Error.Error : Error → String
  | .ErrTodoNotFound => "todo not found"
  | .ErrTodoTitleRequired => "todo title is required"
  | .ErrInvalidPriority => "invalid priority value"
  | .ErrCategoryNotFound => "category not found"
  | .ErrCategoryNameRequired => "category name is required"
  | .storage msg => msg

/-- Go `services.TodoService`, over a store state `σ`. -/
structure TodoService (σ : Type) where
  Create : CreateTodoRequest → σ → Except Error Todo × σ
  GetAll : TodoFilter → σ → Except Error PaginatedResponse × σ
  GetByID : Nat → σ → Except Error Todo × σ
  Update : Nat → UpdateTodoRequest → σ → Except Error Todo × σ
  Delete : Nat → σ → Except Error Unit × σ
  ToggleComplete : Nat → σ → Except Error Todo × σ

/-- Go `NewTodoService(repo)`: the `TodoService` implemented by `todoService`. -/
def NewTodoService {σ : Type} (repo : TodoRepository σ) : TodoService σ :=
  { Create := todoService.Create repo
    GetAll := todoService.GetAll repo
    GetByID := todoService.GetByID repo
    Update := todoService.Update repo
    Delete := todoService.Delete repo
    ToggleComplete := todoService.ToggleComplete repo }

/-! ## package handlers

The web framework and `strconv` are library code. A request is what the
handlers read from `*gin.Context`; a response is what they write with `c.JSON`. -/

/-- The value of a non-empty run of decimal digits; `none` for the empty run and
for a run with another character. -/
def decimalValue (cs : List Char) : Option Nat :=
  if cs = [] then none
  else
    cs.foldl
      (fun acc c =>
        match acc with
        | none => none
        | some n => if '0' ≤ c ∧ c ≤ '9' then some (n * 10 + (c.toNat - '0'.toNat)) else none)
      (some 0)

/-- Modelled from the spec: `strconv.Atoi`, which parses an optional sign and
decimal digits into an `int` (64 bits); `none` stands for a syntax or range
error. -/
def strconv.Atoi (s : String) : Option Int :=
  let signed : Bool × List Char :=
    match s.toList with
    | '-' :: rest => (true, rest)
    | '+' :: rest => (false, rest)
    | rest => (false, rest)
  match decimalValue signed.2 with
  | none => none
  | some n =>
    let v : Int := if signed.1 then -(n : Int) else (n : Int)
    if -(2 : Int) ^ 63 ≤ v ∧ v < (2 : Int) ^ 63 then some v else none

/-- Modelled from the spec: `strconv.ParseUint(s, 10, 32)`, which parses
decimal digits (no sign) into an unsigned integer of 32 bits; `none` stands for a
syntax or range error. -/
def strconv.ParseUint (s : String) : Option Nat :=
  match decimalValue s.toList with
  | none => none
  | some n => if n < 2 ^ 32 then some n else none

/-- What a handler reads from `*gin.Context`: the path parameters, the query
parameters, and the outcome of `c.ShouldBindJSON(&req)` for each of the two
request types (JSON decoding and the checks of the `binding` tags are done by
the framework; a failure carries its message). -/
structure Context where
  params : List (String × String)
  query : List (String × String)
  createBody : Except String CreateTodoRequest
  updateBody : Except String UpdateTodoRequest

/-- Go `c.Param(key)`: the path parameter, or the empty string. -/
def Context.Param (c : Context) (key : String) : String :=
  (c.params.lookup key).getD ""

/-- Go `c.Query(key)`: the first value of the query parameter, or the empty string
when there is none. -/
def Context.Query (c : Context) (key : String) : String :=
  (c.query.lookup key).getD ""

/-- The JSON document written by `c.JSON`: `gin.H{"error": msg}`,
`gin.H{"message": msg}`, a todo, or a paginated response. -/
inductive Body where
  | error (msg : String)
  | message (msg : String)
  | todo (todo : Todo)
  | page (response : PaginatedResponse)
  deriving DecidableEq, Repr

/-- What `c.JSON(status, body)` sends. -/
structure Response where
  status : Nat
  body : Body
  deriving DecidableEq, Repr

/-- Go `http.StatusOK`. -/
def StatusOK : Nat := 200

/-- Go `http.StatusCreated`. -/
def StatusCreated : Nat := 201

/-- Go `http.StatusBadRequest`. -/
def StatusBadRequest : Nat := 400

/-- Go `http.StatusNotFound`. -/
def StatusNotFound : Nat := 404

/-- Go `http.StatusInternalServerError`. -/
def StatusInternalServerError : Nat := 500

/-- Go `TodoHandler.Create`. -/
def TodoHandler.Create {σ : Type} (service : TodoService σ) (c : Context) (s : σ) :
    Response × σ :=
  match c.createBody with
  | .error msg => ({ status := StatusBadRequest, body := .error msg }, s)
  | .ok req =>
    match service.Create req s with
    | (.error err, s1) => ({ status := StatusBadRequest, body := .error err.Error }, s1)
    | (.ok todo, s1) => ({ status := StatusCreated, body := .todo todo }, s1)

/-- The block "Parse page" of `TodoHandler.GetAll`, on the value of the query
parameter. -/
def parsePage (page : String) (filter : TodoFilter) : TodoFilter :=
  if page ≠ "" then
    match strconv.Atoi page with
    | some p => { filter with Page := p }
    | none => filter
  else filter

/-- The block "Parse limit" of `TodoHandler.GetAll`. -/
def parseLimit (limit : String) (filter : TodoFilter) : TodoFilter :=
  if limit ≠ "" then
    match strconv.Atoi limit with
    | some l => { filter with Limit := l }
    | none => filter
  else filter

/-- The block "Parse category_id" of `TodoHandler.GetAll`. -/
def parseCategoryID (categoryID : String) (filter : TodoFilter) : TodoFilter :=
  if categoryID ≠ "" then
    match strconv.ParseUint categoryID with
    | some id => { filter with CategoryID := some id }
    | none => filter
  else filter

/-- The block "Parse completed" of `TodoHandler.GetAll`. -/
def parseCompleted (completed : String) (filter : TodoFilter) : TodoFilter :=
  if completed ≠ "" then { filter with Completed := some (decide (completed = "true")) }
  else filter

/-- The block "Parse priority" of `TodoHandler.GetAll`. -/
def parsePriority (priority : String) (filter : TodoFilter) : TodoFilter :=
  if priority ≠ "" then { filter with Priority := priority } else filter

/-- The filter that the head of `TodoHandler.GetAll` builds from the values of
the query parameters `search`, `sort_by`, `sort_order`, `page`, `limit`,
`category_id`, `completed` and `priority` (each the empty string when absent):
the filter literal, then the five blocks in the order of the source. -/
def todoFilterOf (search sortBy sortOrder page limit categoryID completed priority : String) :
    TodoFilter :=
  parsePriority priority
    (parseCompleted completed
      (parseCategoryID categoryID
        (parseLimit limit
          (parsePage page
            { Search := search, CategoryID := none, Completed := none, Priority := "",
              Page := 0, Limit := 0, SortBy := sortBy, SortOrder := sortOrder }))))

/-- The filter built from the query parameters at the head of
`TodoHandler.GetAll`. -/
def todoFilterOfQuery (c : Context) : TodoFilter :=
  todoFilterOf (c.Query "search") (c.Query "sort_by") (c.Query "sort_order") (c.Query "page")
    (c.Query "limit") (c.Query "category_id") (c.Query "completed") (c.Query "priority")

/-- Go `TodoHandler.GetAll`. -/
def TodoHandler.GetAll {σ : Type} (service : TodoService σ) (c : Context) (s : σ) :
    Response × σ :=
  match service.GetAll (todoFilterOfQuery c) s with
  | (.error err, s1) => ({ status := StatusInternalServerError, body := .error err.Error }, s1)
  | (.ok response, s1) => ({ status := StatusOK, body := .page response }, s1)

/-- Go `TodoHandler.GetByID`. -/
def TodoHandler.GetByID {σ : Type} (service : TodoService σ) (c : Context) (s : σ) :
    Response × σ :=
  match strconv.ParseUint (c.Param "id") with
  | none => ({ status := StatusBadRequest, body := .error "invalid todo ID" }, s)
  | some id =>
    match service.GetByID id s with
    | (.error err, s1) => ({ status := StatusNotFound, body := .error err.Error }, s1)
    | (.ok todo, s1) => ({ status := StatusOK, body := .todo todo }, s1)

/-- Go `TodoHandler.Update`. -/
def TodoHandler.Update {σ : Type} (service : TodoService σ) (c : Context) (s : σ) :
    Response × σ :=
  match strconv.ParseUint (c.Param "id") with
  | none => ({ status := StatusBadRequest, body := .error "invalid todo ID" }, s)
  | some id =>
    match c.updateBody with
    | .error msg => ({ status := StatusBadRequest, body := .error msg }, s)
    | .ok req =>
      match service.Update id req s with
      | (.error err, s1) => ({ status := StatusNotFound, body := .error err.Error }, s1)
      | (.ok todo, s1) => ({ status := StatusOK, body := .todo todo }, s1)

/-- Go `TodoHandler.Delete`. -/
def TodoHandler.Delete {σ : Type} (service : TodoService σ) (c : Context) (s : σ) :
    Response × σ :=
  match strconv.ParseUint (c.Param "id") with
  | none => ({ status := StatusBadRequest, body := .error "invalid todo ID" }, s)
  | some id =>
    match service.Delete id s with
    | (.error err, s1) => ({ status := StatusNotFound, body := .error err.Error }, s1)
    | (.ok _, s1) => ({ status := StatusOK, body := .message "todo deleted successfully" }, s1)

/-- Go `TodoHandler.ToggleComplete`. -/
def TodoHandler.ToggleComplete {σ : Type} (service : TodoService σ) (c : Context) (s : σ) :
    Response × σ :=
  match strconv.ParseUint (c.Param "id") with
  | none => ({ status := StatusBadRequest, body := .error "invalid todo ID" }, s)
  | some id =>
    match service.ToggleComplete id s with
    | (.error err, s1) => ({ status := StatusNotFound, body := .error err.Error }, s1)
    | (.ok todo, s1) => ({ status := StatusOK, body := .todo todo }, s1)

/-- The engine orders rows without adding or dropping any: what `ORDER BY`
returns is a rearrangement of the rows it is given. -/
def QueryEngine.OrdersRows (q : QueryEngine) : Prop :=
  ∀ (clause : String) (rows sorted : List Todo),
    q.orderBy clause rows = some sorted → sorted.Perm rows

/-- Every stored todo has its priority among "high", "medium" and "low". -/
def DB.PrioritiesValid (db : DB) : Prop :=
  ∀ t ∈ db.todos, t.Priority = "high" ∨ t.Priority = "medium" ∨ t.Priority = "low"

/-- The repository `repo` as one client sees it while another client deletes the
todo `victim` right after each write of this client (`Create`, `Update`): the
statements of the two requests interleave, which nothing in the services
prevents. -/
def withConcurrentDelete {σ : Type} (repo : TodoRepository σ) (victim : Nat) :
    TodoRepository σ :=
  { Create := fun todo s =>
      match repo.Create todo s with
      | (.error err, s1) => (.error err, s1)
      | (.ok todo, s1) => (.ok todo, (repo.Delete victim s1).2)
    GetAll := repo.GetAll
    GetByID := repo.GetByID
    Update := fun todo s =>
      match repo.Update todo s with
      | (.error err, s1) => (.error err, s1)
      | (.ok todo, s1) => (.ok todo, (repo.Delete victim s1).2)
    Delete := repo.Delete }

/-- The repository `repo` on a connection that is lost once a write of this client
(`Create`, `Update`) has gone through: the write is stored, and every later
`GetByID` is answered with the error of the driver, the store untouched. The flag
kept next to the store says whether the connection is lost. Nothing in the
services retries a statement or undoes a write. -/
def withConnectionLostAfterWrite {σ : Type} (repo : TodoRepository σ) :
    TodoRepository (σ × Bool) :=
  { Create := fun todo s =>
      match repo.Create todo s.1 with
      | (.error err, s1) => (.error err, (s1, s.2))
      | (.ok todo, s1) => (.ok todo, (s1, true))
    GetAll := fun filter s => ((repo.GetAll filter s.1).1, ((repo.GetAll filter s.1).2, s.2))
    GetByID := fun id s =>
      if s.2 then (.error (Error.storage "driver: bad connection"), s)
      else ((repo.GetByID id s.1).1, ((repo.GetByID id s.1).2, s.2))
    Update := fun todo s =>
      match repo.Update todo s.1 with
      | (.error err, s1) => (.error err, (s1, s.2))
      | (.ok todo, s1) => (.ok todo, (s1, true))
    Delete := fun id s => ((repo.Delete id s.1).1, ((repo.Delete id s.1).2, s.2)) }

/-- The request `GET /todos?completed=true&priority=high&page=2&limit=5`. -/
def exampleContext : Context :=
  { params := []
    query := [("completed", "true"), ("priority", "high"), ("page", "2"), ("limit", "5")]
    createBody := .error "EOF"
    updateBody := .error "EOF" }

/-- The request `GET /todos?completed=yes&page=two&limit=`. -/
def exampleContextMalformed : Context :=
  { params := []
    query := [("completed", "yes"), ("page", "two"), ("limit", "")]
    createBody := .error "EOF"
    updateBody := .error "EOF" }

/-! ## Lemmas on the repository over the relational store -/

theorem NewTodoRepository_storageErrorsOnly (q : QueryEngine) :
    (NewTodoRepository q).StorageErrorsOnly := by
  refine ⟨?_, ?_, ?_, ?_, ?_⟩
  · intro todo s err h
    simp [NewTodoRepository, todoRepository.Create, DB.createTodo] at h
  · intro filter s err h
    simp only [NewTodoRepository, todoRepository.GetAll] at h
    split at h
    · exact ⟨_, by simpa using h.symm⟩
    · simp at h
  · intro id s err h
    simp only [NewTodoRepository, todoRepository.GetByID, DB.firstTodo] at h
    split at h
    · rename_i e heq
      split at heq
      · exact ⟨_, by simp at heq; simp at h; rw [← h, ← heq]⟩
      · simp at heq
    · simp at h
  · intro todo s err h
    simp only [NewTodoRepository, todoRepository.Update, DB.saveTodo] at h
    split at h <;> simp at h
  · intro id s err h
    simp [NewTodoRepository, todoRepository.Delete, DB.deleteTodo] at h

theorem find_after_delete_same (rows : List Todo) (id : Nat) :
    (rows.filter (fun t => !(t.ID == id))).find? (fun t => t.ID == id) = none := by
  rw [List.find?_eq_none]
  intro x hx
  simp only [List.mem_filter] at hx
  simpa using hx.2

theorem find_after_delete_other (rows : List Todo) (id other : Nat) (h : other ≠ id) :
    (rows.filter (fun t => !(t.ID == id))).find? (fun t => t.ID == other) =
      rows.find? (fun t => t.ID == other) := by
  induction rows with
  | nil => rfl
  | cons a rest ih =>
    by_cases ha : a.ID = id
    · have h1 : (!(a.ID == id)) = false := by simp [ha]
      have h2 : (a.ID == other) = false := by
        rw [ha]
        simpa using fun h3 : id = other => h h3.symm
      rw [List.filter_cons, List.find?_cons]
      simp only [h1, h2, Bool.false_eq_true, if_false, ih]
    · have h1 : (!(a.ID == id)) = true := by simp [ha]
      rw [List.filter_cons]
      simp only [h1, if_true]
      rw [List.find?_cons, List.find?_cons, ih]

theorem find_of_mem (rows : List Todo) (id : Nat) (t : Todo) (hmem : t ∈ rows)
    (hid : t.ID = id) : ∃ r, rows.find? (fun t => t.ID == id) = some r := by
  cases h : rows.find? (fun t => t.ID == id) with
  | some r => exact ⟨r, rfl⟩
  | none =>
    rw [List.find?_eq_none] at h
    exact absurd (by simpa using hid) (h t hmem)

theorem find_after_save (rows : List Todo) (id : Nat) (row r : Todo)
    (h : rows.find? (fun t => t.ID == id) = some row) (hr : r.ID = id) :
    (rows.map (fun t => if t.ID == id then r else t)).find? (fun t => t.ID == id) = some r := by
  induction rows with
  | nil => simp at h
  | cons a rest ih =>
    by_cases ha : a.ID = id
    · have h1 : (a.ID == id) = true := by simp [ha]
      have h2 : (r.ID == id) = true := by simp [hr]
      rw [List.map_cons, List.find?_cons]
      simp only [h1, if_true, h2]
    · have h1 : (a.ID == id) = false := by simp [ha]
      rw [List.find?_cons] at h
      simp only [h1] at h
      rw [List.map_cons, List.find?_cons]
      simp only [h1, Bool.false_eq_true, if_false]
      exact ih h

theorem any_of_find (rows : List Todo) (id : Nat) (row : Todo)
    (h : rows.find? (fun t => t.ID == id) = some row) :
    rows.any (fun t => t.ID == id) = true := by
  rw [List.any_eq_true]
  exact ⟨row, List.mem_of_find?_eq_some h,
    List.find?_some (p := fun t : Todo => t.ID == id) h⟩

theorem saveTodo_existing (todo : Todo) (db : DB)
    (h : db.todos.any (fun t => t.ID == todo.ID) = true) :
    DB.saveTodo todo db =
      (.ok todo,
        { db with
          todos := db.todos.map (fun t =>
            if t.ID == todo.ID then { todo with Category := none } else t) }) := by
  unfold DB.saveTodo
  rw [if_pos h]

theorem saveTodo_ok (todo : Todo) (db : DB) :
    DB.saveTodo todo db = (.ok todo, (DB.saveTodo todo db).2) := by
  unfold DB.saveTodo
  split <;> rfl

theorem toggleComplete_eq (σ : Type) (repo : TodoRepository σ) (id : Nat) (s s1 s2 : σ)
    (t r : Todo) (hget : repo.GetByID id s = (.ok t, s1))
    (hupd : repo.Update { t with Completed := !t.Completed } s1 = (.ok r, s2)) :
    todoService.ToggleComplete repo id s = (.ok r, s2) := by
  simp only [todoService.ToggleComplete, hget, hupd]

/-- On the relational store, every todo that a lookup finds is returned with
`Completed` negated by `todoService.ToggleComplete`, and returned as it was by a
second call. -/
theorem toggleComplete_twice_store (q : QueryEngine) (db : DB) (id : Nat) (t : Todo)
    (hget : todoRepository.GetByID id db = (.ok t, db)) :
    ∃ db1 db2 : DB,
      todoService.ToggleComplete (NewTodoRepository q) id db =
        (.ok { t with Completed := !t.Completed }, db1) ∧
      todoService.ToggleComplete (NewTodoRepository q) id db1 = (.ok t, db2) := by
  -- the row behind the looked-up entity
  obtain ⟨row, hfind, ht⟩ : ∃ row, db.todos.find? (fun t => t.ID == id) = some row ∧
      t = db.preloadCategory row := by
    unfold todoRepository.GetByID DB.firstTodo at hget
    cases hf : db.todos.find? (fun t => t.ID == id) with
    | none => simp [hf] at hget
    | some row =>
      refine ⟨row, rfl, ?_⟩
      simp only [hf] at hget
      simpa using hget.symm
  have hrow : row.ID = id := by
    simpa using List.find?_some (p := fun t : Todo => t.ID == id) hfind
  have htid : t.ID = id := by
    rw [ht]
    unfold DB.preloadCategory
    split <;> exact hrow
  have hcat : db.preloadCategory t = t := by
    rw [ht]
    unfold DB.preloadCategory
    cases hc : row.CategoryID <;> simp
  subst htid
  have hany : db.todos.any (fun x => x.ID == t.ID) = true :=
    any_of_find db.todos t.ID row hfind
  -- first call
  have hsave := saveTodo_existing { t with Completed := !t.Completed } db hany
  have hfind1 := find_after_save db.todos t.ID row
    { t with Completed := !t.Completed, Category := none } hfind rfl
  have hget1 : todoRepository.GetByID t.ID (DB.saveTodo { t with Completed := !t.Completed } db).2 =
      (.ok { t with Completed := !t.Completed },
        (DB.saveTodo { t with Completed := !t.Completed } db).2) := by
    rw [hsave]
    unfold todoRepository.GetByID DB.firstTodo
    dsimp only
    rw [hfind1]
    dsimp only
    have : ({ db with
        todos := db.todos.map (fun x =>
          if x.ID == t.ID then { t with Completed := !t.Completed, Category := none }
          else x) } : DB).preloadCategory
        { t with Completed := !t.Completed, Category := none } =
        { db.preloadCategory t with Completed := !t.Completed } := by
      unfold DB.preloadCategory
      cases hc : t.CategoryID <;> simp
    rw [this, hcat]
  refine ⟨(DB.saveTodo { t with Completed := !t.Completed } db).2,
    (DB.saveTodo t (DB.saveTodo { t with Completed := !t.Completed } db).2).2, ?_, ?_⟩
  · exact toggleComplete_eq DB (NewTodoRepository q) t.ID db db _ t _ hget (saveTodo_ok _ _)
  · refine toggleComplete_eq DB (NewTodoRepository q) t.ID _ _ _ _ t hget1 ?_
    dsimp only
    rw [Bool.not_not]
    exact saveTodo_ok t _

/-! ## Lemmas on `isValidPriority` -/

theorem isValidPriority_iff (p : Priority) :
    isValidPriority p = true ↔ p = "high" ∨ p = "medium" ∨ p = "low" := by
  simp [isValidPriority, PriorityHigh, PriorityMedium, PriorityLow, or_assoc]

/-! ## Lemmas on the pagination defaults -/

theorem normalizeFilter_eq (filter : TodoFilter) :
    normalizeFilter filter =
      { filter with
        Page := if filter.Page ≤ 0 then 1 else filter.Page
        Limit := if filter.Limit ≤ 0 then 10 else if filter.Limit > 100 then 100
          else filter.Limit } := by
  unfold normalizeFilter
  by_cases hp : filter.Page ≤ 0 <;> by_cases hl : filter.Limit ≤ 0 <;>
    by_cases hu : filter.Limit > 100 <;> simp [hp, hl, hu]

theorem normalizeFilter_limit_bounds (filter : TodoFilter) :
    1 ≤ (normalizeFilter filter).Limit ∧ (normalizeFilter filter).Limit ≤ 100 := by
  rw [normalizeFilter_eq]
  dsimp only
  constructor <;> split_ifs <;> omega

/-! ## Lemmas on the binary64 page count -/

theorem roundHalfEven_intCast (z : ℤ) : roundHalfEven (z : ℚ) = z := by
  simp [roundHalfEven]

theorem roundFloat64_of_scaled_int (q : ℚ) (z : ℤ)
    (h : q / (2 : ℚ) ^ (Int.log 2 |q| - 52) = z) : roundFloat64 q = q := by
  unfold roundFloat64
  split
  · rename_i h0
    exact h0.symm
  · dsimp only
    rw [h, roundHalfEven_intCast, ← h]
    have hpos : (0 : ℚ) < (2 : ℚ) ^ (Int.log 2 |q| - 52) := by positivity
    field_simp

theorem log_natCast_eq (n k : ℕ) (h1 : 2 ^ k ≤ n) (h2 : n < 2 ^ (k + 1)) :
    Int.log 2 |((n : ℤ) : ℚ)| = k := by
  have : |((n : ℤ) : ℚ)| = ((n : ℕ) : ℚ) := by simp
  rw [this, Int.log_natCast, Nat.log_eq_of_pow_le_of_lt_pow h1 h2]

theorem float64OfInt_two_pow_53_succ : float64OfInt 9007199254740993 = 9007199254740992 := by
  have hlog : Int.log 2 |((9007199254740993 : ℤ) : ℚ)| = 53 := by
    have := log_natCast_eq 9007199254740993 53 (by norm_num) (by norm_num)
    simpa using this
  unfold float64OfInt roundFloat64
  rw [if_neg (by norm_num), hlog]
  have hfl : ⌊((9007199254740993 : ℤ) : ℚ) / 2 ^ ((53 : ℤ) - 52)⌋ = 4503599627370496 := by
    rw [Int.floor_eq_iff]
    norm_num
  unfold roundHalfEven
  simp only [hfl]
  norm_num

theorem totalPages_failing : totalPages 9007199254740993 1 = 9007199254740992 := by
  have h1 : float64OfInt 1 = 1 := by
    unfold float64OfInt
    apply roundFloat64_of_scaled_int _ (2 ^ 52)
    have hlog : Int.log 2 |((1 : ℤ) : ℚ)| = 0 := by
      have := log_natCast_eq 1 0 (by norm_num) (by norm_num)
      simp
    rw [hlog]
    norm_num
  have h2 : float64Div 9007199254740992 1 = 9007199254740992 := by
    unfold float64Div
    rw [div_one]
    apply roundFloat64_of_scaled_int _ (2 ^ 52)
    have hlog : Int.log 2 |(9007199254740992 : ℚ)| = 53 := by
      have := log_natCast_eq 9007199254740992 53 (by norm_num) (by norm_num)
      simpa using this
    rw [hlog]
    norm_num
  unfold totalPages
  rw [float64OfInt_two_pow_53_succ, h1, h2]
  unfold mathCeil intOfFloat64
  norm_num

theorem floor_le_roundHalfEven (m : ℚ) : ⌊m⌋ ≤ roundHalfEven m := by
  unfold roundHalfEven
  dsimp only
  split_ifs <;> omega

theorem roundHalfEven_le_of_le (m : ℚ) (N : ℤ) (h : m ≤ N) : roundHalfEven m ≤ N := by
  have hfl : ⌊m⌋ ≤ N := Int.floor_le_iff.mpr (lt_of_le_of_lt h (by linarith))
  have hstep : (0 : ℚ) < m - ⌊m⌋ → ⌊m⌋ + 1 ≤ N := by
    intro hr
    have h1 : ((⌊m⌋ : ℤ) : ℚ) < (N : ℚ) := by linarith
    have h2 : ⌊m⌋ < N := by exact_mod_cast h1
    omega
  unfold roundHalfEven
  dsimp only
  split_ifs with h1 h2 h3
  · exact hfl
  · exact hstep (by linarith)
  · exact hfl
  · exact hstep (by linarith)

theorem roundHalfEven_of_half_lt (m : ℚ) (h : 1 / 2 < m - ⌊m⌋) :
    roundHalfEven m = ⌊m⌋ + 1 := by
  unfold roundHalfEven
  dsimp only
  rw [if_neg (by linarith), if_pos h]

theorem log_le_52 (q : ℚ) (h0 : 0 < q) (h : q < 2 ^ (53 : ℕ)) : Int.log 2 |q| ≤ 52 := by
  rw [abs_of_pos h0]
  have h2 : q < ((2 : ℕ) : ℚ) ^ (53 : ℤ) := by
    norm_num at h ⊢
    exact h
  have := (Int.lt_zpow_iff_log_lt (by norm_num : 1 < 2) h0).mp h2
  omega

theorem float64OfInt_exact (n : ℤ) (h0 : 0 ≤ n) (h : n < 2 ^ (53 : ℕ)) :
    float64OfInt n = n := by
  unfold float64OfInt
  rcases eq_or_lt_of_le h0 with h0 | h0
  · rw [← h0]
    simp [roundFloat64]
  · have hq : (0 : ℚ) < (n : ℚ) := by exact_mod_cast h0
    have hlt : (n : ℚ) < 2 ^ (53 : ℕ) := by exact_mod_cast h
    have he := log_le_52 (n : ℚ) hq hlt
    obtain ⟨k, hk⟩ : ∃ k : ℕ, (k : ℤ) = 52 - Int.log 2 |(n : ℚ)| :=
      ⟨(52 - Int.log 2 |(n : ℚ)|).toNat, Int.toNat_of_nonneg (by omega)⟩
    apply roundFloat64_of_scaled_int _ (n * 2 ^ k)
    have : Int.log 2 |(n : ℚ)| - 52 = -(k : ℤ) := by omega
    rw [this, zpow_neg, zpow_natCast]
    push_cast
    field_simp

theorem intOfFloat64_intCast (n : ℤ) (h0 : 0 ≤ n) (h : n < 2 ^ (63 : ℕ)) :
    intOfFloat64 (n : ℚ) = n := by
  unfold intOfFloat64
  have hq : (0 : ℚ) ≤ (n : ℚ) := by exact_mod_cast h0
  simp only [hq, if_true, Int.floor_intCast]
  rw [if_pos]
  constructor
  · have : (0 : ℤ) < 2 ^ 63 := by norm_num
    omega
  · exact_mod_cast h

theorem ceil_roundFloat64_div (total limit : ℤ) (h0 : 0 < total) (h : total < 2 ^ (53 : ℕ))
    (hl : 1 ≤ limit) :
    ⌈roundFloat64 ((total : ℚ) / limit)⌉ = ⌈(total : ℚ) / limit⌉ := by
  have htq : (0 : ℚ) < (total : ℚ) := by exact_mod_cast h0
  have hlq : (1 : ℚ) ≤ (limit : ℚ) := by exact_mod_cast hl
  have hlpos : (0 : ℚ) < (limit : ℚ) := by linarith
  have htlt : (total : ℚ) < 2 ^ (53 : ℕ) := by exact_mod_cast h
  set q : ℚ := (total : ℚ) / limit with hqdef
  have hq : 0 < q := div_pos htq hlpos
  have hqle : q ≤ total := div_le_self htq.le hlq
  have he := log_le_52 q hq (lt_of_le_of_lt hqle htlt)
  obtain ⟨k, hk⟩ : ∃ k : ℕ, (k : ℤ) = 52 - Int.log 2 |q| :=
    ⟨(52 - Int.log 2 |q|).toNat, Int.toNat_of_nonneg (by omega)⟩
  have hexp : Int.log 2 |q| - 52 = -(k : ℤ) := by omega
  have hpow : (2 : ℚ) ^ Int.log 2 |q| ≤ q := by
    have := Int.zpow_log_le_self (R := ℚ) (by norm_num : 1 < 2) hq
    rw [abs_of_pos hq]
    exact_mod_cast this
  -- the spacing of the representable values around `q` is `1 / 2 ^ k`
  have hK : (0 : ℚ) < (2 : ℚ) ^ k := by positivity
  have hscaled : q / (2 : ℚ) ^ (Int.log 2 |q| - 52) = q * 2 ^ k := by
    rw [hexp, zpow_neg, zpow_natCast, div_inv_eq_mul]
  have hulp : (2 : ℚ) ^ (Int.log 2 |q| - 52) = ((2 : ℚ) ^ k)⁻¹ := by
    rw [hexp, zpow_neg, zpow_natCast]
  -- `limit < 2 * 2 ^ k`
  have hlim : (limit : ℚ) < 2 * 2 ^ k := by
    have h1 : (2 : ℚ) ^ Int.log 2 |q| * 2 ^ k = 2 ^ (52 : ℕ) := by
      rw [← zpow_natCast (2 : ℚ) k, ← zpow_add₀ (by norm_num : (2 : ℚ) ≠ 0), hk]
      norm_num
    have h2 : (2 : ℚ) ^ Int.log 2 |q| * limit ≤ total := by
      have := mul_le_mul_of_nonneg_right hpow hlpos.le
      rwa [hqdef, div_mul_cancel₀ _ hlpos.ne'] at this
    have h3 : (0 : ℚ) < (2 : ℚ) ^ Int.log 2 |q| := by positivity
    have h4 : (2 : ℚ) ^ Int.log 2 |q| * limit < (2 : ℚ) ^ Int.log 2 |q| * (2 * 2 ^ k) := by
      have : (2 : ℚ) ^ Int.log 2 |q| * (2 * 2 ^ k) = 2 ^ (53 : ℕ) := by
        rw [mul_left_comm, h1]
        norm_num
      rw [this]
      exact lt_of_le_of_lt h2 htlt
    exact lt_of_mul_lt_mul_left h4 h3.le
  unfold roundFloat64
  rw [if_neg hq.ne']
  dsimp only
  rw [hscaled, hulp]
  set n : ℤ := ⌈q⌉ with hn
  have hqn : q ≤ n := Int.le_ceil q
  have hnq : (n : ℚ) - 1 < q := by
    have := Int.ceil_lt_add_one q
    linarith
  rw [Int.ceil_eq_iff]
  constructor
  · -- lower bound
    have hgap : (1 : ℚ) ≤ (total : ℚ) - (n - 1) * limit := by
      have h1 : ((n - 1 : ℤ) : ℚ) * limit < total := by
        have := mul_lt_mul_of_pos_right hnq hlpos
        rw [hqdef, div_mul_cancel₀ _ hlpos.ne'] at this
        push_cast
        exact this
      have h2 : (n - 1) * limit < total := by exact_mod_cast h1
      have h3 : (1 : ℤ) ≤ total - (n - 1) * limit := by omega
      exact_mod_cast h3
    have hfloor : ((n - 1) * 2 ^ k : ℤ) ≤ ⌊q * 2 ^ k⌋ := by
      rw [Int.le_floor]
      push_cast
      have := mul_lt_mul_of_pos_right hnq hK
      linarith
    have hR : ((n - 1) * 2 ^ k : ℤ) + 1 ≤ roundHalfEven (q * 2 ^ k) := by
      rcases eq_or_lt_of_le hfloor with heq | hlt
      · have hfrac : 1 / 2 < q * 2 ^ k - ⌊q * 2 ^ k⌋ := by
          rw [← heq]
          push_cast
          have h5 : q - (n - 1) = ((total : ℚ) - (n - 1) * limit) / limit := by
            rw [hqdef]
            field_simp
            ring
          have h6 : q * 2 ^ k - (n - 1) * 2 ^ k = (q - (n - 1)) * 2 ^ k := by ring
          rw [h6, h5, div_mul_eq_mul_div, lt_div_iff₀ hlpos]
          nlinarith
        rw [roundHalfEven_of_half_lt _ hfrac, ← heq]
      · have := floor_le_roundHalfEven (q * 2 ^ k)
        omega
    have hRq : (((n - 1) * 2 ^ k : ℤ) : ℚ) + 1 ≤ (roundHalfEven (q * 2 ^ k) : ℚ) := by
      exact_mod_cast hR
    push_cast at hRq
    have : ((n : ℚ) - 1) * 2 ^ k < (roundHalfEven (q * 2 ^ k) : ℚ) := by linarith
    calc (n : ℚ) - 1 = ((n : ℚ) - 1) * 2 ^ k * ((2 : ℚ) ^ k)⁻¹ := by field_simp
      _ < (roundHalfEven (q * 2 ^ k) : ℚ) * ((2 : ℚ) ^ k)⁻¹ :=
          mul_lt_mul_of_pos_right this (inv_pos.mpr hK)
  · -- upper bound
    have hle : roundHalfEven (q * 2 ^ k) ≤ n * 2 ^ k := by
      apply roundHalfEven_le_of_le
      push_cast
      exact mul_le_mul_of_nonneg_right hqn hK.le
    have hleq : (roundHalfEven (q * 2 ^ k) : ℚ) ≤ (n : ℚ) * 2 ^ k := by exact_mod_cast hle
    calc (roundHalfEven (q * 2 ^ k) : ℚ) * ((2 : ℚ) ^ k)⁻¹
        ≤ (n : ℚ) * 2 ^ k * ((2 : ℚ) ^ k)⁻¹ := mul_le_mul_of_nonneg_right hleq (inv_pos.mpr hK).le
      _ = n := by field_simp

theorem totalPages_exact (total limit : ℤ) (h0 : 0 ≤ total) (h : total < 2 ^ (53 : ℕ))
    (hl : 1 ≤ limit) (hu : limit ≤ 100) :
    totalPages total limit = ⌈(total : ℚ) / limit⌉ := by
  have hlim : float64OfInt limit = limit :=
    float64OfInt_exact limit (by omega) (lt_of_le_of_lt hu (by norm_num))
  unfold totalPages
  rw [float64OfInt_exact total h0 h, hlim]
  unfold float64Div mathCeil
  rcases eq_or_lt_of_le h0 with ht | ht
  · rw [← ht]
    simp [roundFloat64, intOfFloat64]
  · rw [ceil_roundFloat64_div total limit ht h hl]
    have hq : (0 : ℚ) < (total : ℚ) / limit :=
      div_pos (by exact_mod_cast ht) (by exact_mod_cast (by omega : (0 : ℤ) < limit))
    have hc0 : 0 ≤ ⌈(total : ℚ) / limit⌉ := Int.ceil_nonneg hq.le
    have hc1 : ⌈(total : ℚ) / limit⌉ ≤ total := by
      rw [Int.ceil_le]
      exact div_le_self (by exact_mod_cast h0) (by exact_mod_cast hl)
    apply intOfFloat64_intCast _ hc0
    have : (2 : ℤ) ^ (53 : ℕ) < 2 ^ (63 : ℕ) := by norm_num
    omega

/-! ## Lemmas on the services over the relational store -/

theorem getByID_store (id : Nat) (db : DB) :
    (∃ msg, todoRepository.GetByID id db = (.error (Error.storage msg), db)) ∨
    (∃ row, row ∈ db.todos ∧ row.ID = id ∧
      db.todos.find? (fun t => t.ID == id) = some row ∧
      todoRepository.GetByID id db = (.ok (db.preloadCategory row), db)) := by
  unfold todoRepository.GetByID DB.firstTodo
  cases h : db.todos.find? (fun t => t.ID == id) with
  | none => exact Or.inl ⟨_, rfl⟩
  | some row =>
    refine Or.inr ⟨row, List.mem_of_find?_eq_some h, ?_, rfl, rfl⟩
    simpa using List.find?_some (p := fun t : Todo => t.ID == id) h

theorem preloadCategory_fields (db : DB) (row : Todo) :
    (db.preloadCategory row).ID = row.ID ∧ (db.preloadCategory row).Title = row.Title ∧
    (db.preloadCategory row).Description = row.Description ∧
    (db.preloadCategory row).Completed = row.Completed ∧
    (db.preloadCategory row).Priority = row.Priority ∧
    (db.preloadCategory row).DueDate = row.DueDate ∧
    (db.preloadCategory row).CategoryID = row.CategoryID := by
  unfold DB.preloadCategory
  split <;> simp

theorem getByID_after_save (todo : Todo) (db : DB)
    (h : db.todos.any (fun t => t.ID == todo.ID) = true) :
    ∃ r, todoRepository.GetByID todo.ID (DB.saveTodo todo db).2 =
      (.ok r, (DB.saveTodo todo db).2) := by
  rw [List.any_eq_true] at h
  obtain ⟨x, hx, hxid⟩ := h
  have hxid : x.ID = todo.ID := by simpa using hxid
  obtain ⟨row, hrow⟩ := find_of_mem db.todos todo.ID x hx hxid
  have hfind := find_after_save db.todos todo.ID row { todo with Category := none } hrow rfl
  rw [saveTodo_existing todo db (any_of_find db.todos todo.ID row hrow)]
  unfold todoRepository.GetByID DB.firstTodo
  dsimp only
  rw [hfind]
  exact ⟨_, rfl⟩

theorem create_on_store (q : QueryEngine) (req : CreateTodoRequest) (db : DB) :
    (∃ err, todoService.Create (NewTodoRepository q) req db = (.error err, db) ∧
      (err = ErrTodoTitleRequired ∨ err = ErrInvalidPriority)) ∨
    (∃ e r, (e.Priority = "high" ∨ e.Priority = "medium" ∨ e.Priority = "low") ∧
      todoService.Create (NewTodoRepository q) req db = (.ok r, (DB.createTodo e db).2)) := by
  unfold todoService.Create
  by_cases htitle : req.Title = ""
  · left
    exact ⟨_, by rw [if_pos htitle], Or.inl rfl⟩
  · rw [if_neg htitle]
    by_cases hv : req.Priority ≠ "" ∧ isValidPriority req.Priority = false
    · left
      exact ⟨_, by rw [if_pos hv], Or.inr rfl⟩
    · right
      rw [if_neg hv]
      dsimp only
      have hprio : ∀ p : Priority, p = (if req.Priority = "" then PriorityMedium else req.Priority) →
          p = "high" ∨ p = "medium" ∨ p = "low" := by
        intro p hp
        by_cases h0 : req.Priority = ""
        · rw [if_pos h0] at hp
          exact Or.inr (Or.inl hp)
        · rw [if_neg h0] at hp
          have : isValidPriority req.Priority = true := by
            by_contra hc
            exact hv ⟨h0, by simpa using hc⟩
          rw [hp]
          exact (isValidPriority_iff _).mp this
      refine ⟨{ Todo.zero with
          Title := req.Title, Description := req.Description,
          Priority := if req.Priority = "" then PriorityMedium else req.Priority,
          DueDate := req.DueDate, CategoryID := req.CategoryID }, ?_⟩
      have hfound : ∀ e : Todo, ∃ r, todoRepository.GetByID (db.todoSeq + 1) (DB.createTodo e db).2 =
          (.ok r, (DB.createTodo e db).2) := by
        intro e
        unfold DB.createTodo
        dsimp only
        obtain ⟨row, hrow⟩ := find_of_mem
          (db.todos ++ [{ e with ID := db.todoSeq + 1, CreatedAt := db.now, UpdatedAt := db.now,
                                 Category := none }]) (db.todoSeq + 1)
          { e with ID := db.todoSeq + 1, CreatedAt := db.now, UpdatedAt := db.now,
                   Category := none } (by simp) rfl
        unfold todoRepository.GetByID DB.firstTodo
        dsimp only
        rw [hrow]
        exact ⟨_, rfl⟩
      obtain ⟨r, hr⟩ := hfound { Todo.zero with
          Title := req.Title, Description := req.Description,
          Priority := if req.Priority = "" then PriorityMedium else req.Priority,
          DueDate := req.DueDate, CategoryID := req.CategoryID }
      refine ⟨r, hprio _ rfl, ?_⟩
      by_cases h0 : req.Priority = ""
      · simp only [h0, if_true] at hr ⊢
        simp only [NewTodoRepository, todoRepository.Create]
        unfold DB.createTodo at hr ⊢
        exact hr
      · simp only [h0, if_false] at hr ⊢
        simp only [NewTodoRepository, todoRepository.Create]
        unfold DB.createTodo at hr ⊢
        exact hr

theorem applyTodoUpdate_some (t e : Todo) (req : UpdateTodoRequest)
    (h : applyTodoUpdate t req = some e) :
    e.ID = t.ID ∧
    (e.Priority = t.Priority ∨ e.Priority = "high" ∨ e.Priority = "medium" ∨ e.Priority = "low") := by
  unfold applyTodoUpdate at h
  dsimp only at h
  by_cases hv : req.Priority ≠ "" ∧ isValidPriority req.Priority = false
  · rw [if_pos hv] at h
    exact Option.noConfusion h
  · rw [if_neg hv] at h
    simp only [Option.some.injEq] at h
    subst h
    have hprio : req.Priority ≠ "" →
        req.Priority = "high" ∨ req.Priority = "medium" ∨ req.Priority = "low" := by
      intro h0
      have : isValidPriority req.Priority = true := by
        by_contra hc
        exact hv ⟨h0, by simpa using hc⟩
      exact (isValidPriority_iff _).mp this
    rcases req with ⟨rt, rd, rc, rp, rdd, rcid⟩
    constructor
    · cases rc <;> cases rdd <;> cases rcid <;>
        by_cases h1 : rt = "" <;> by_cases h2 : rd = "" <;> by_cases h3 : rp = "" <;>
        simp [h1, h2, h3]
    · by_cases h3 : rp = ""
      · left
        cases rc <;> cases rdd <;> cases rcid <;>
          by_cases h1 : rt = "" <;> by_cases h2 : rd = "" <;> simp [h1, h2, h3]
      · right
        have hp := hprio h3
        cases rc <;> cases rdd <;> cases rcid <;>
          by_cases h1 : rt = "" <;> by_cases h2 : rd = "" <;> simpa [h1, h2, h3] using hp

theorem update_on_store (q : QueryEngine) (id : Nat) (req : UpdateTodoRequest) (db : DB) :
    (∃ err, todoService.Update (NewTodoRepository q) id req db = (.error err, db) ∧
      (err = ErrTodoNotFound ∨ err = ErrInvalidPriority)) ∨
    (∃ row e r, row ∈ db.todos ∧ row.ID = id ∧
      applyTodoUpdate (db.preloadCategory row) req = some e ∧
      todoService.Update (NewTodoRepository q) id req db = (.ok r, (DB.saveTodo e db).2)) := by
  rcases getByID_store id db with ⟨msg, hget⟩ | ⟨row, hmem, hid, hfind, hget⟩
  · left
    exact ⟨_, by simp only [todoService.Update, NewTodoRepository, hget], Or.inl rfl⟩
  · cases hm : applyTodoUpdate (db.preloadCategory row) req with
    | none =>
      left
      exact ⟨_, by simp only [todoService.Update, NewTodoRepository, hget, hm], Or.inr rfl⟩
    | some e =>
      right
      have heid : e.ID = id := by
        rw [(applyTodoUpdate_some _ e req hm).1, (preloadCategory_fields db row).1, hid]
      have hany : db.todos.any (fun t => t.ID == e.ID) = true := by
        rw [heid]
        exact any_of_find db.todos id row hfind
      obtain ⟨r, hr⟩ := getByID_after_save e db hany
      refine ⟨row, e, r, hmem, hid, hm, ?_⟩
      simp only [todoService.Update, NewTodoRepository, hget, hm, todoRepository.Update]
      rw [saveTodo_ok e db]
      exact hr

theorem toggle_on_store (q : QueryEngine) (id : Nat) (db : DB) :
    todoService.ToggleComplete (NewTodoRepository q) id db = (.error ErrTodoNotFound, db) ∨
    (∃ row, row ∈ db.todos ∧ row.ID = id ∧
      todoService.ToggleComplete (NewTodoRepository q) id db =
        (.ok { db.preloadCategory row with Completed := !(db.preloadCategory row).Completed },
          (DB.saveTodo
            { db.preloadCategory row with Completed := !(db.preloadCategory row).Completed }
            db).2)) := by
  rcases getByID_store id db with ⟨msg, hget⟩ | ⟨row, hmem, hid, hfind, hget⟩
  · left
    simp only [todoService.ToggleComplete, NewTodoRepository, hget]
  · right
    refine ⟨row, hmem, hid, ?_⟩
    exact toggleComplete_eq DB (NewTodoRepository q) id db db _ _ _ hget (saveTodo_ok _ _)

theorem delete_on_store (q : QueryEngine) (id : Nat) (db : DB) :
    todoService.Delete (NewTodoRepository q) id db = (.error ErrTodoNotFound, db) ∨
    todoService.Delete (NewTodoRepository q) id db = (.ok (), (DB.deleteTodo id db).2) := by
  rcases getByID_store id db with ⟨msg, hget⟩ | ⟨row, hmem, hid, hfind, hget⟩
  · left
    simp only [todoService.Delete, NewTodoRepository, hget]
  · right
    simp only [todoService.Delete, NewTodoRepository, hget, todoRepository.Delete]
    rfl

theorem saveTodo_mem (todo : Todo) (db : DB) (x : Todo) (hx : x ∈ (DB.saveTodo todo db).2.todos) :
    x ∈ db.todos ∨ x = { todo with Category := none } := by
  unfold DB.saveTodo at hx
  split at hx
  · simp only [List.mem_map] at hx
    obtain ⟨y, hy, hxy⟩ := hx
    split at hxy
    · exact Or.inr hxy.symm
    · exact Or.inl (hxy ▸ hy)
  · simp only [List.mem_append, List.mem_singleton] at hx
    exact hx

theorem createTodo_mem (todo : Todo) (db : DB) (x : Todo)
    (hx : x ∈ (DB.createTodo todo db).2.todos) :
    x ∈ db.todos ∨ x.Priority = todo.Priority := by
  unfold DB.createTodo at hx
  simp only [List.mem_append, List.mem_singleton] at hx
  rcases hx with h | h
  · exact Or.inl h
  · exact Or.inr (by rw [h])

theorem category_getByID_store (id : Nat) (db : DB) :
    (∃ err, categoryRepository.GetByID id db = (.error err, db)) ∨
    (∃ c, categoryRepository.GetByID id db = (.ok c, db)) := by
  unfold categoryRepository.GetByID
  cases DB.firstCategory id db with
  | error err => exact Or.inl ⟨err, rfl⟩
  | ok c => exact Or.inr ⟨c, rfl⟩

theorem saveCategory_ok (category : Category) (db : DB) :
    DB.saveCategory category db = (.ok category, (DB.saveCategory category db).2) := by
  unfold DB.saveCategory
  split <;> rfl

theorem find_category_after_create (rows : List Category) (r : Category) (seq : Nat)
    (hfresh : ∀ x ∈ rows, x.ID ≤ seq) (hid : r.ID = seq + 1) :
    (rows ++ [r]).find? (fun c => c.ID == seq + 1) = some r := by
  rw [List.find?_append]
  have hnone : rows.find? (fun c => c.ID == seq + 1) = none := by
    rw [List.find?_eq_none]
    intro x hx
    have := hfresh x hx
    simp only [beq_iff_eq]
    omega
  rw [hnone]
  simp [hid]

theorem create_category_on_store (sortByName : List Category → List Category)
    (req : CreateCategoryRequest) (db : DB) (h : req.Name ≠ "") (r : Category)
    (hr : r = { ID := db.categorySeq + 1, Name := req.Name,
                Color := if req.Color = "" then "#3B82F6" else req.Color,
                CreatedAt := db.now, UpdatedAt := db.now }) :
    categoryService.Create (NewCategoryRepository sortByName) req db =
      (.ok r, { db with
                categories := db.categories ++ [r], categorySeq := db.categorySeq + 1 }) := by
  subst hr
  unfold categoryService.Create
  rw [if_neg h]
  by_cases hc : req.Color = ""
  · simp [hc, NewCategoryRepository, categoryRepository.Create, DB.createCategory,
      Category.zero]
  · simp [hc, NewCategoryRepository, categoryRepository.Create, DB.createCategory,
      Category.zero]

theorem category_errors_on_store (sortByName : List Category → List Category)
    (req : CreateCategoryRequest) (id : Nat) (ureq : UpdateCategoryRequest) (db : DB) :
    (∀ err, (categoryService.Create (NewCategoryRepository sortByName) req db).1 = .error err →
      categoryService.Create (NewCategoryRepository sortByName) req db =
        (.error ErrCategoryNameRequired, db)) ∧
    (∀ err, (categoryService.Update (NewCategoryRepository sortByName) id ureq db).1 =
        .error err →
      categoryService.Update (NewCategoryRepository sortByName) id ureq db =
        (.error ErrCategoryNotFound, db)) ∧
    (∀ err, (categoryService.Delete (NewCategoryRepository sortByName) id db).1 = .error err →
      categoryService.Delete (NewCategoryRepository sortByName) id db =
        (.error ErrCategoryNotFound, db)) := by
  refine ⟨?_, ?_, ?_⟩
  · intro err h
    unfold categoryService.Create at h ⊢
    by_cases hn : req.Name = ""
    · rw [if_pos hn]
    · rw [if_neg hn] at h
      simp [NewCategoryRepository, categoryRepository.Create, DB.createCategory] at h
  · intro err h
    rcases category_getByID_store id db with ⟨e, hget⟩ | ⟨c, hget⟩
    · simp only [categoryService.Update, NewCategoryRepository, hget]
    · simp only [categoryService.Update, NewCategoryRepository, hget,
        categoryRepository.Update] at h
      rw [saveCategory_ok] at h
      simp at h
  · intro err h
    rcases category_getByID_store id db with ⟨e, hget⟩ | ⟨c, hget⟩
    · simp only [categoryService.Delete, NewCategoryRepository, hget]
    · simp [categoryService.Delete, NewCategoryRepository, hget,
        categoryRepository.Delete, DB.deleteCategory] at h

theorem update_invalid_priority_journal (σ : Type) (repo : TodoRepository σ) (id : Nat)
    (req : UpdateTodoRequest) (s s1 : σ) (t : Todo)
    (hget : repo.GetByID id s = (.ok t, s1))
    (hne : req.Priority ≠ "") (hbad : isValidPriority req.Priority = false) :
    todoService.Update repo.recording id req (s, []) =
      (.error ErrInvalidPriority, (s1, [TodoCall.GetByID id])) := by
  have hm : ∀ t : Todo, applyTodoUpdate t req = none := by
    intro t
    unfold applyTodoUpdate
    dsimp only
    rw [if_pos ⟨hne, hbad⟩]
  simp [todoService.Update, TodoRepository.recording, hget, hm]

theorem create_invalid_journal (σ : Type) (repo : TodoRepository σ) (req : CreateTodoRequest)
    (s : σ)
    (h : req.Title = "" ∨ (req.Priority ≠ "" ∧ isValidPriority req.Priority = false)) :
    ∃ err, todoService.Create repo.recording req (s, []) = (.error err, (s, [])) ∧
      (err = ErrTodoTitleRequired ∨ err = ErrInvalidPriority) := by
  unfold todoService.Create
  by_cases ht : req.Title = ""
  · exact ⟨ErrTodoTitleRequired, by rw [if_pos ht], Or.inl rfl⟩
  · rcases h with h | h
    · exact absurd h ht
    · exact ⟨ErrInvalidPriority, by rw [if_neg ht, if_pos h], Or.inr rfl⟩

/-- On the relational store used by one client, where no statement fails for a
reason other than a missing row, the only errors of the mutating operations are
those of validation and of the lookup that opens the operation, and the store is
then what it was. -/
theorem errors_on_store_leave_store (q : QueryEngine) (sortByName : List Category → List Category)
    (db : DB) (treq : CreateTodoRequest) (id : Nat) (ureq : UpdateTodoRequest)
    (creq : CreateCategoryRequest) (cid : Nat) (cureq : UpdateCategoryRequest) :
    (∀ err, (todoService.Create (NewTodoRepository q) treq db).1 = .error err →
      (todoService.Create (NewTodoRepository q) treq db).2 = db ∧
        (err = ErrTodoTitleRequired ∨ err = ErrInvalidPriority)) ∧
    (∀ err, (todoService.Update (NewTodoRepository q) id ureq db).1 = .error err →
      (todoService.Update (NewTodoRepository q) id ureq db).2 = db ∧
        (err = ErrTodoNotFound ∨ err = ErrInvalidPriority)) ∧
    (∀ err, (todoService.Delete (NewTodoRepository q) id db).1 = .error err →
      (todoService.Delete (NewTodoRepository q) id db).2 = db ∧ err = ErrTodoNotFound) ∧
    (∀ err, (todoService.ToggleComplete (NewTodoRepository q) id db).1 = .error err →
      (todoService.ToggleComplete (NewTodoRepository q) id db).2 = db ∧
        err = ErrTodoNotFound) ∧
    (∀ err, (categoryService.Create (NewCategoryRepository sortByName) creq db).1 =
        .error err →
      (categoryService.Create (NewCategoryRepository sortByName) creq db).2 = db ∧
        err = ErrCategoryNameRequired) ∧
    (∀ err, (categoryService.Update (NewCategoryRepository sortByName) cid cureq db).1 =
        .error err →
      (categoryService.Update (NewCategoryRepository sortByName) cid cureq db).2 = db ∧
        err = ErrCategoryNotFound) ∧
    (∀ err, (categoryService.Delete (NewCategoryRepository sortByName) cid db).1 =
        .error err →
      (categoryService.Delete (NewCategoryRepository sortByName) cid db).2 = db ∧
        err = ErrCategoryNotFound) ∧
    (∀ row, row ∈ db.todos → row.ID = id → ureq.Priority ≠ "" →
      ureq.Priority ≠ "high" → ureq.Priority ≠ "medium" → ureq.Priority ≠ "low" →
      todoService.Update (NewTodoRepository q) id ureq db = (.error ErrInvalidPriority, db) ∧
      (todoService.GetByID (NewTodoRepository q) id db).1 =
        (todoService.GetByID (NewTodoRepository q) id
          (todoService.Update (NewTodoRepository q) id ureq db).2).1) := by
  refine ⟨?_, ?_, ?_, ?_, ?_, ?_, ?_, ?_⟩
  · intro err h
    rcases create_on_store q treq db with ⟨e, h1, he⟩ | ⟨e, r, _, h1⟩
    · rw [h1] at h ⊢
      simp only [Except.error.injEq] at h
      exact ⟨rfl, h ▸ he⟩
    · rw [h1] at h
      simp at h
  · intro err h
    rcases update_on_store q id ureq db with ⟨e, h1, he⟩ | ⟨row, e, r, _, _, _, h1⟩
    · rw [h1] at h ⊢
      simp only [Except.error.injEq] at h
      exact ⟨rfl, h ▸ he⟩
    · rw [h1] at h
      simp at h
  · intro err h
    rcases delete_on_store q id db with h1 | h1
    · rw [h1] at h ⊢
      simp only [Except.error.injEq] at h
      exact ⟨rfl, h.symm⟩
    · rw [h1] at h
      simp at h
  · intro err h
    rcases toggle_on_store q id db with h1 | ⟨row, _, _, h1⟩
    · rw [h1] at h ⊢
      simp only [Except.error.injEq] at h
      exact ⟨rfl, h.symm⟩
    · rw [h1] at h
      simp at h
  · intro err h
    have h1 := (category_errors_on_store sortByName creq cid cureq db).1 err h
    rw [h1] at h ⊢
    simp only [Except.error.injEq] at h
    exact ⟨rfl, h.symm⟩
  · intro err h
    have h1 := (category_errors_on_store sortByName creq cid cureq db).2.1 err h
    rw [h1] at h ⊢
    simp only [Except.error.injEq] at h
    exact ⟨rfl, h.symm⟩
  · intro err h
    have h1 := (category_errors_on_store sortByName creq cid cureq db).2.2 err h
    rw [h1] at h ⊢
    simp only [Except.error.injEq] at h
    exact ⟨rfl, h.symm⟩
  · intro row hmem hid hne h1 h2 h3
    have hbad : isValidPriority ureq.Priority = false := by
      rw [← Bool.not_eq_true, isValidPriority_iff]
      tauto
    obtain ⟨r, hr⟩ := find_of_mem db.todos id row hmem hid
    have hget : todoRepository.GetByID id db = (.ok (db.preloadCategory r), db) := by
      unfold todoRepository.GetByID DB.firstTodo
      rw [hr]
    have hm : applyTodoUpdate (db.preloadCategory r) ureq = none := by
      unfold applyTodoUpdate
      dsimp only
      rw [if_pos ⟨hne, hbad⟩]
    have hupd : todoService.Update (NewTodoRepository q) id ureq db =
        (.error ErrInvalidPriority, db) := by
      simp only [todoService.Update, NewTodoRepository, hget, hm]
    rw [hupd]
    exact ⟨rfl, rfl⟩

/-! ## Lemmas on the reload that ends Create and Update -/

theorem create_reload_result (σ : Type) (repo : TodoRepository σ) (req : CreateTodoRequest)
    (s s1 : σ) (e created : Todo) (htitle : req.Title ≠ "")
    (hprio : req.Priority = "" ∨ isValidPriority req.Priority = true)
    (he : e = { Todo.zero with
      Title := req.Title, Description := req.Description,
      Priority := if req.Priority = "" then PriorityMedium else req.Priority,
      DueDate := req.DueDate, CategoryID := req.CategoryID })
    (hcreate : repo.Create e s = (.ok created, s1)) :
    todoService.Create repo req s = repo.GetByID created.ID s1 := by
  have hv : ¬ (req.Priority ≠ "" ∧ isValidPriority req.Priority = false) := by
    rintro ⟨hne, hf⟩
    rcases hprio with h | h
    · exact hne h
    · rw [h] at hf
      exact Bool.noConfusion hf
  subst he
  unfold todoService.Create
  rw [if_neg htitle, if_neg hv]
  dsimp only
  by_cases hp : req.Priority = ""
  · simp only [hp, if_true] at hcreate ⊢
    rw [hcreate]
  · simp only [hp, if_false] at hcreate ⊢
    rw [hcreate]

theorem update_reload_result (σ : Type) (repo : TodoRepository σ) (id : Nat)
    (req : UpdateTodoRequest) (s s1 s2 : σ) (t e saved : Todo)
    (hget : repo.GetByID id s = (.ok t, s1))
    (hmerge : applyTodoUpdate t req = some e)
    (hsave : repo.Update e s1 = (.ok saved, s2)) :
    todoService.Update repo id req s = repo.GetByID saved.ID s2 := by
  simp only [todoService.Update, hget, hmerge, hsave]

/-! ## Lemmas on `todoRepository.GetAll` -/

theorem todoMatches_iff (q : QueryEngine) (filter : TodoFilter) (t : Todo) :
    todoMatches q filter t = true ↔
      (filter.Search = "" ∨
        q.ilike t.Title ("%" ++ filter.Search ++ "%") = true ∨
        q.ilike t.Description ("%" ++ filter.Search ++ "%") = true) ∧
      (∀ cid, filter.CategoryID = some cid → t.CategoryID = some cid) ∧
      (∀ b, filter.Completed = some b → t.Completed = b) ∧
      (filter.Priority = "" ∨ t.Priority = filter.Priority) := by
  unfold todoMatches
  rcases filter with ⟨fs, fc, fd, fp, fpage, flimit, fsb, fso⟩
  cases fc <;> cases fd <;> by_cases h1 : fs = "" <;> by_cases h2 : fp = "" <;>
    simp [h1, h2, and_assoc]

theorem getAll_store (q : QueryEngine) (hq : q.OrdersRows) (filter : TodoFilter) (db db1 : DB)
    (rows : List Todo) (total : Int)
    (h : todoRepository.GetAll q filter db = (.ok (rows, total), db1)) :
    db1 = db ∧ total = ((db.todos.filter (todoMatches q filter)).length : Int) ∧
    ∀ r ∈ rows, ∃ row ∈ db.todos, todoMatches q filter row = true ∧
      r = db.preloadCategory row := by
  unfold todoRepository.GetAll at h
  dsimp only at h
  cases horder : q.orderBy
      ((if filter.SortBy = "" then "created_at" else filter.SortBy) ++ " " ++
        (if filter.SortOrder = "" then "DESC" else filter.SortOrder))
      (db.todos.filter (todoMatches q filter)) with
  | none =>
    rw [horder] at h
    simp at h
  | some sorted =>
    rw [horder] at h
    simp only [Prod.mk.injEq, Except.ok.injEq] at h
    obtain ⟨⟨hrows, htotal⟩, hdb⟩ := h
    refine ⟨hdb.symm, htotal.symm, ?_⟩
    intro r hr
    rw [← hrows, List.mem_map] at hr
    obtain ⟨x, hx, hxr⟩ := hr
    have hsorted : x ∈ sorted := by
      split at hx
      · exact List.mem_of_mem_drop (List.mem_of_mem_take hx)
      · exact hx
    have hquery := (hq _ _ _ horder).subset hsorted
    rw [List.mem_filter] at hquery
    exact ⟨x, hquery.1, hquery.2, hxr.symm⟩

theorem getAll_store_total (q : QueryEngine) (filter : TodoFilter) (db : DB)
    (page limit : Int) :
    (∀ rows total db1, todoRepository.GetAll q filter db = (.ok (rows, total), db1) →
      total = ((db.todos.filter (todoMatches q filter)).length : Int)) ∧
    todoMatches q { filter with Page := page, Limit := limit } =
      todoMatches q filter := by
  constructor
  · intro rows total db1 h
    unfold todoRepository.GetAll at h
    dsimp only at h
    split at h
    · simp at h
    · simp only [Prod.mk.injEq, Except.ok.injEq] at h
      exact h.1.2.symm
  · rfl

/-! ## Lemmas on `likeMatch` -/

theorem ofChar_literal (c : Char) (h : c ≠ '%' ∧ c ≠ '_' ∧ c ≠ '\\') :
    LikeToken.ofChar c = .lit c := by
  unfold LikeToken.ofChar
  rw [if_neg h.1, if_neg h.2.1, if_neg h.2.2]

theorem likeTokens_cons_cons (c d : Char) (rest : List Char) :
    likeTokens (c :: d :: rest) =
      if c = '\\' then .lit d :: likeTokens rest
      else LikeToken.ofChar c :: likeTokens (d :: rest) := by
  rw [likeTokens]

theorem likeTokens_literal (p : List Char) (hp : ∀ c ∈ p, c ≠ '%' ∧ c ≠ '_' ∧ c ≠ '\\') :
    likeTokens (p ++ ['%']) = p.map LikeToken.lit ++ [LikeToken.anyRun] := by
  induction p with
  | nil => rfl
  | cons c p ih =>
    have hc := hp c (List.mem_cons_self c p)
    have hp1 : ∀ c ∈ p, c ≠ '%' ∧ c ≠ '_' ∧ c ≠ '\\' :=
      fun d hd => hp d (List.mem_cons_of_mem c hd)
    have ih1 := ih hp1
    cases p with
    | nil =>
      show likeTokens (c :: '%' :: []) = _
      rw [likeTokens_cons_cons, if_neg hc.2.2, ofChar_literal c hc]
      rfl
    | cons d p =>
      show likeTokens (c :: d :: (p ++ ['%'])) = _
      rw [likeTokens_cons_cons, if_neg hc.2.2, ofChar_literal c hc]
      rw [List.cons_append] at ih1
      rw [ih1]
      rfl

theorem likeTokens_percent (d : Char) (rest : List Char) :
    likeTokens ('%' :: d :: rest) = LikeToken.anyRun :: likeTokens (d :: rest) := by
  rw [likeTokens_cons_cons, if_neg (by decide)]
  rfl

theorem matchTokens_anyRun (tokens : List LikeToken) (text : List Char) :
    matchTokens (.anyRun :: tokens) text = true ↔
      ∃ t1 t2, text = t1 ++ t2 ∧ matchTokens tokens t2 = true := by
  rw [matchTokens]
  simp only [List.any_eq_true, List.mem_tails]
  constructor
  · rintro ⟨t2, ⟨t1, ht⟩, h⟩
    exact ⟨t1, t2, ht.symm, h⟩
  · rintro ⟨t1, t2, ht, h⟩
    exact ⟨t2, ⟨t1, ht.symm⟩, h⟩

theorem matchTokens_literal (p : List Char) (tokens : List LikeToken) (text : List Char) :
    matchTokens (p.map LikeToken.lit ++ tokens) text = true ↔
      ∃ t2, text = p ++ t2 ∧ matchTokens tokens t2 = true := by
  induction p generalizing text with
  | nil => simp
  | cons c p ih =>
    cases text with
    | nil =>
      rw [List.map_cons, List.cons_append, matchTokens]
      simp
    | cons d t =>
      rw [List.map_cons, List.cons_append, matchTokens]
      simp only [Bool.and_eq_true, beq_iff_eq, ih t, List.cons_append, List.cons.injEq]
      constructor
      · rintro ⟨hcd, t2, ht, h⟩
        exact ⟨t2, ⟨hcd.symm, ht⟩, h⟩
      · rintro ⟨t2, ⟨hcd, ht⟩, h⟩
        exact ⟨hcd.symm, t2, ht, h⟩

theorem likeMatch_contains (p text : List Char)
    (hp : ∀ c ∈ p, c ≠ '%' ∧ c ≠ '_' ∧ c ≠ '\\') :
    likeMatch ('%' :: (p ++ ['%'])) text = true ↔ p <:+: text := by
  have htok : likeTokens ('%' :: (p ++ ['%'])) =
      LikeToken.anyRun :: (p.map LikeToken.lit ++ [LikeToken.anyRun]) := by
    cases p with
    | nil => rfl
    | cons c p =>
      show likeTokens ('%' :: c :: (p ++ ['%'])) = _
      rw [likeTokens_percent]
      exact congrArg _ (likeTokens_literal (c :: p) hp)
  unfold likeMatch
  rw [htok, matchTokens_anyRun]
  constructor
  · rintro ⟨t1, t2, ht, h⟩
    obtain ⟨t3, ht3, _⟩ := (matchTokens_literal p _ t2).mp h
    exact ⟨t1, t3, by rw [ht, ht3, List.append_assoc]⟩
  · rintro ⟨t1, t3, ht⟩
    refine ⟨t1, p ++ t3, by rw [← ht, List.append_assoc], ?_⟩
    rw [matchTokens_literal]
    refine ⟨t3, rfl, ?_⟩
    rw [matchTokens_anyRun]
    exact ⟨t3, [], by simp, rfl⟩

theorem toLower_literal (c : Char) (h : c ≠ '%' ∧ c ≠ '_' ∧ c ≠ '\\') :
    c.toLower ≠ '%' ∧ c.toLower ≠ '_' ∧ c.toLower ≠ '\\' := by
  unfold Char.toLower
  dsimp only
  split
  · rename_i hn
    obtain ⟨h1, h2⟩ := hn
    generalize c.toNat = n at h1 h2
    interval_cases n <;> decide
  · exact h

/-- For a search text without `%`, `_` and backslash, `ILIKE` with the pattern
built by `todoRepository.GetAll` is containment of the lower-cased search text
in the lower-cased text. -/
theorem sqlILike_contains (text search : String)
    (h : ∀ c ∈ search.toList, c ≠ '%' ∧ c ≠ '_' ∧ c ≠ '\\') :
    sqlILike text ("%" ++ search ++ "%") = true ↔
      search.toList.map Char.toLower <:+: text.toList.map Char.toLower := by
  unfold sqlILike
  have hpat : ("%" ++ search ++ "%").toList.map Char.toLower =
      '%' :: (search.toList.map Char.toLower ++ ['%']) := by
    simp only [String.toList, String.data_append, List.map_append]
    rfl
  rw [hpat]
  apply likeMatch_contains
  intro c hc
  rw [List.mem_map] at hc
  obtain ⟨d, hd, hdc⟩ := hc
  rw [← hdc]
  exact toLower_literal d (h d hd)

/-! ## Lemmas on the handlers -/

theorem atoi_empty : strconv.Atoi "" = none := by decide

theorem parseUint_empty : strconv.ParseUint "" = none := by decide

theorem parsePage_eq (page : String) (f : TodoFilter) :
    parsePage page f = { f with Page := (strconv.Atoi page).getD f.Page } := by
  unfold parsePage
  by_cases h : page = ""
  · subst h
    rw [atoi_empty]
    rfl
  · rw [if_pos h]
    cases strconv.Atoi page <;> rfl

theorem parseLimit_eq (limit : String) (f : TodoFilter) :
    parseLimit limit f = { f with Limit := (strconv.Atoi limit).getD f.Limit } := by
  unfold parseLimit
  by_cases h : limit = ""
  · subst h
    rw [atoi_empty]
    rfl
  · rw [if_pos h]
    cases strconv.Atoi limit <;> rfl

theorem parseCategoryID_eq (categoryID : String) (f : TodoFilter) :
    parseCategoryID categoryID f =
      { f with CategoryID := (strconv.ParseUint categoryID).orElse (fun _ => f.CategoryID) } := by
  unfold parseCategoryID
  by_cases h : categoryID = ""
  · subst h
    rw [parseUint_empty]
    rfl
  · rw [if_pos h]
    cases strconv.ParseUint categoryID <;> rfl

theorem parseCompleted_eq (completed : String) (f : TodoFilter) :
    parseCompleted completed f =
      { f with
        Completed :=
          if completed = "" then f.Completed
          else if completed = "true" then some true else some false } := by
  unfold parseCompleted
  by_cases h : completed = ""
  · simp [h]
  · by_cases h2 : completed = "true" <;> simp [h, h2]

theorem parsePriority_eq (priority : String) (f : TodoFilter) :
    parsePriority priority f =
      { f with Priority := if priority = "" then f.Priority else priority } := by
  unfold parsePriority
  by_cases h : priority = "" <;> simp [h]

theorem todoFilterOf_eq
    (search sortBy sortOrder page limit categoryID completed priority : String) :
    todoFilterOf search sortBy sortOrder page limit categoryID completed priority =
      { Search := search
        CategoryID := strconv.ParseUint categoryID
        Completed :=
          if completed = "" then none else if completed = "true" then some true else some false
        Priority := priority
        Page := (strconv.Atoi page).getD 0
        Limit := (strconv.Atoi limit).getD 0
        SortBy := sortBy
        SortOrder := sortOrder } := by
  unfold todoFilterOf
  rw [parsePriority_eq, parseCompleted_eq, parseCategoryID_eq, parseLimit_eq, parsePage_eq]
  cases strconv.ParseUint categoryID <;> by_cases h : priority = "" <;> simp [h]

theorem todoHandler_status_table (σ : Type) (service : TodoService σ) (c : Context) (s : σ) :
    ((TodoHandler.Create service c s).1.status =
      match c.createBody with
      | .error _ => StatusBadRequest
      | .ok req =>
        match (service.Create req s).1 with
        | .error _ => StatusBadRequest
        | .ok _ => StatusCreated) ∧
    ((TodoHandler.GetAll service c s).1.status =
      match (service.GetAll (todoFilterOfQuery c) s).1 with
      | .error _ => StatusInternalServerError
      | .ok _ => StatusOK) ∧
    ((TodoHandler.GetByID service c s).1.status =
      match strconv.ParseUint (c.Param "id") with
      | none => StatusBadRequest
      | some id =>
        match (service.GetByID id s).1 with
        | .error _ => StatusNotFound
        | .ok _ => StatusOK) ∧
    ((TodoHandler.Update service c s).1.status =
      match strconv.ParseUint (c.Param "id") with
      | none => StatusBadRequest
      | some id =>
        match c.updateBody with
        | .error _ => StatusBadRequest
        | .ok req =>
          match (service.Update id req s).1 with
          | .error _ => StatusNotFound
          | .ok _ => StatusOK) ∧
    ((TodoHandler.Delete service c s).1.status =
      match strconv.ParseUint (c.Param "id") with
      | none => StatusBadRequest
      | some id =>
        match (service.Delete id s).1 with
        | .error _ => StatusNotFound
        | .ok _ => StatusOK) ∧
    ((TodoHandler.ToggleComplete service c s).1.status =
      match strconv.ParseUint (c.Param "id") with
      | none => StatusBadRequest
      | some id =>
        match (service.ToggleComplete id s).1 with
        | .error _ => StatusNotFound
        | .ok _ => StatusOK) := by
  refine ⟨?_, ?_, ?_, ?_, ?_, ?_⟩
  · unfold TodoHandler.Create
    cases c.createBody with
    | error msg => rfl
    | ok req => rcases h : service.Create req s with ⟨_ | _, s1⟩ <;> simp [h]
  · unfold TodoHandler.GetAll
    rcases h : service.GetAll (todoFilterOfQuery c) s with ⟨_ | _, s1⟩ <;> simp [h]
  · unfold TodoHandler.GetByID
    cases strconv.ParseUint (c.Param "id") with
    | none => rfl
    | some id => rcases h : service.GetByID id s with ⟨_ | _, s1⟩ <;> simp [h]
  · unfold TodoHandler.Update
    cases strconv.ParseUint (c.Param "id") with
    | none => rfl
    | some id =>
      cases c.updateBody with
      | error msg => rfl
      | ok req => rcases h : service.Update id req s with ⟨_ | _, s1⟩ <;> simp [h]
  · unfold TodoHandler.Delete
    cases strconv.ParseUint (c.Param "id") with
    | none => rfl
    | some id => rcases h : service.Delete id s with ⟨_ | _, s1⟩ <;> simp [h]
  · unfold TodoHandler.ToggleComplete
    cases strconv.ParseUint (c.Param "id") with
    | none => rfl
    | some id => rcases h : service.ToggleComplete id s with ⟨_ | _, s1⟩ <;> simp [h]

/-- At a persistence failure the todo handlers answer with the fixed failure
status of their route: on a repository whose `Create` fails, `POST /todos` is
answered with 400, and on one whose `Delete` fails after a successful lookup,
`DELETE /todos/1` is answered with 404. -/
theorem handler_storage_failure_status :
    (TodoHandler.Create
        (NewTodoService (scriptedTodoRepository
          { create := some (Error.storage "connection refused"),
            getByID := fun _ => .error (Error.storage "record not found"),
            update := none, delete := none, now := 0 }))
        { params := [], query := [],
          createBody := .ok { Title := "Buy milk", Description := "", Priority := "",
                              DueDate := none, CategoryID := none },
          updateBody := .error "EOF" } ()).1 =
      { status := 400, body := .error "connection refused" } ∧
    (TodoHandler.Delete
        (NewTodoService (scriptedTodoRepository
          { create := none, getByID := fun _ => .ok exampleTodo, update := none,
            delete := some (Error.storage "connection refused"), now := 0 }))
        { params := [("id", "1")], query := [], createBody := .error "EOF",
          updateBody := .error "EOF" } ()).1 =
      { status := 404, body := .error "connection refused" } := by
  decide

theorem exampleEngine_ordersRows: exampleEngine.OrdersRows := by
  intro clause rows sorted h
  simp only [exampleEngine, Option.some.injEq] at h
  rw [h]

theorem todoFilterOfQuery_eq (c : Context) :
    todoFilterOfQuery c =
      { Search := c.Query "search"
        CategoryID := strconv.ParseUint (c.Query "category_id")
        Completed :=
          if c.Query "completed" = "" then none
          else if c.Query "completed" = "true" then some true else some false
        Priority := c.Query "priority"
        Page := (strconv.Atoi (c.Query "page")).getD 0
        Limit := (strconv.Atoi (c.Query "limit")).getD 0
        SortBy := c.Query "sort_by"
        SortOrder := c.Query "sort_order" } := by
  unfold todoFilterOfQuery
  rw [todoFilterOf_eq]

theorem getAll_handler_run (σ : Type) (repo : TodoRepository σ) (c : Context) (s : σ) :
    (TodoHandler.GetAll (NewTodoService repo.recording) c (s, [])).2.2 =
      [TodoCall.GetAll (normalizeFilter (todoFilterOfQuery c))] ∧
    (∀ todos total s1,
      repo.GetAll (normalizeFilter (todoFilterOfQuery c)) s = (.ok (todos, total), s1) →
      TodoHandler.GetAll (NewTodoService repo) c s =
        ({ status := StatusOK,
           body := .page
             { Data := todos,
               Pagination :=
                 { CurrentPage := (normalizeFilter (todoFilterOfQuery c)).Page
                   PerPage := (normalizeFilter (todoFilterOfQuery c)).Limit
                   Total := total
                   TotalPages :=
                     totalPages total (normalizeFilter (todoFilterOfQuery c)).Limit } } },
          s1)) ∧
    (∀ err s1, repo.GetAll (normalizeFilter (todoFilterOfQuery c)) s = (.error err, s1) →
      TodoHandler.GetAll (NewTodoService repo) c s =
        ({ status := StatusInternalServerError, body := .error err.Error }, s1)) := by
  refine ⟨?_, ?_, ?_⟩
  · unfold TodoHandler.GetAll NewTodoService todoService.GetAll
    dsimp only
    rcases h : repo.GetAll (normalizeFilter (todoFilterOfQuery c)) s with ⟨_ | ⟨todos, total⟩, s1⟩ <;>
      simp [TodoRepository.recording, h]
  · intro todos total s1 h
    simp only [TodoHandler.GetAll, NewTodoService, todoService.GetAll, h]
  · intro err s1 h
    simp only [TodoHandler.GetAll, NewTodoService, todoService.GetAll, h]


theorem getAll_isOk_store (q : QueryEngine) (filter : TodoFilter) (db : DB) :
    (todoRepository.GetAll q filter db).1.isOk =
      (q.orderBy
        ((if filter.SortBy = "" then "created_at" else filter.SortBy) ++ " " ++
          (if filter.SortOrder = "" then "DESC" else filter.SortOrder))
        (db.todos.filter (todoMatches q filter))).isSome := by
  unfold todoRepository.GetAll
  dsimp only
  cases q.orderBy
      ((if filter.SortBy = "" then "created_at" else filter.SortBy) ++ " " ++
        (if filter.SortOrder = "" then "DESC" else filter.SortOrder))
      (db.todos.filter (todoMatches q filter)) with
  | none => rfl
  | some sorted => rfl

theorem getAll_handler_status_store (q : QueryEngine) (c : Context) (db : DB) :
    (TodoHandler.GetAll (NewTodoService (NewTodoRepository q)) c db).1.status =
      if (todoRepository.GetAll q (normalizeFilter (todoFilterOfQuery c)) db).1.isOk
      then StatusOK else StatusInternalServerError := by
  rcases h : todoRepository.GetAll q (normalizeFilter (todoFilterOfQuery c)) db with
    ⟨err | ⟨todos, total⟩, db1⟩
  · rw [(getAll_handler_run DB (NewTodoRepository q) c db).2.2 err db1 h]
    rfl
  · rw [(getAll_handler_run DB (NewTodoRepository q) c db).2.1 todos total db1 h]
    rfl

/-! ## Claims -/

/-- C1. `todoService.Create` returns `ErrTodoTitleRequired` exactly when the
request title is the empty string (for a repository that reports storage errors
only), and then no repository method is called and the store is unchanged. -/
theorem create_title_required_iff (σ : Type) (repo : TodoRepository σ)
    (req : CreateTodoRequest) (s : σ) (hrepo : repo.StorageErrorsOnly) :
    ((todoService.Create repo req s).1 = .error ErrTodoTitleRequired ↔ req.Title = "") ∧
    (req.Title = "" →
      todoService.Create repo.recording req (s, []) = (.error ErrTodoTitleRequired, (s, []))) := by
  constructor
  · constructor
    · intro h
      by_contra hne
      unfold todoService.Create at h
      rw [if_neg hne] at h
      split at h
      · simp at h
      · dsimp only at h
        split at h
        · rename_i err s1 heq
          obtain ⟨msg, hmsg⟩ := hrepo.1 _ _ err (by rw [heq])
          simp [hmsg] at h
        · obtain ⟨msg, hmsg⟩ := hrepo.2.2.1 _ _ _ h
          simp at hmsg
    · intro h
      simp [todoService.Create, h]
  · intro h
    simp [todoService.Create, h]

/-- C1, on the example store: a whitespace-only title is not answered with
`ErrTodoTitleRequired`; the empty title is, with no repository call. -/
theorem create_title_required_iff_witness :
    (NewTodoRepository exampleEngine).StorageErrorsOnly ∧
    ((todoService.Create (NewTodoRepository exampleEngine)
        { Title := " ", Description := "", Priority := "", DueDate := none, CategoryID := none }
        exampleDB).1 = .error ErrTodoTitleRequired ↔ " " = "") ∧
    todoService.Create (NewTodoRepository exampleEngine).recording
        { Title := "", Description := "", Priority := "", DueDate := none, CategoryID := none }
        (exampleDB, []) = (.error ErrTodoTitleRequired, (exampleDB, [])) :=
  ⟨NewTodoRepository_storageErrorsOnly exampleEngine,
    (create_title_required_iff DB (NewTodoRepository exampleEngine)
      { Title := " ", Description := "", Priority := "", DueDate := none, CategoryID := none }
      exampleDB (NewTodoRepository_storageErrorsOnly exampleEngine)).1,
    (create_title_required_iff DB (NewTodoRepository exampleEngine)
      { Title := "", Description := "", Priority := "", DueDate := none, CategoryID := none }
      exampleDB (NewTodoRepository_storageErrorsOnly exampleEngine)).2 rfl⟩

/-- C2, as stated, fails: with an empty title the title check comes first, and a
priority outside the enumeration is answered with `ErrTodoTitleRequired`. -/
theorem create_invalid_priority_counterexample :
    ("urgent" ≠ "high" ∧ "urgent" ≠ "medium" ∧ "urgent" ≠ "low" ∧ "urgent" ≠ "") ∧
    (todoService.Create (NewTodoRepository exampleEngine)
        { Title := "", Description := "", Priority := "urgent", DueDate := none,
          CategoryID := none } exampleDB).1 = .error ErrTodoTitleRequired ∧
    (todoService.Create (NewTodoRepository exampleEngine)
        { Title := "", Description := "", Priority := "urgent", DueDate := none,
          CategoryID := none } exampleDB).1 ≠ .error ErrInvalidPriority := by
  decide

/-- C2, amended. For every request with a non-empty title whose priority is none
of "high", "medium", "low" and the empty string, `todoService.Create` returns
`ErrInvalidPriority`, calls no repository method and leaves the store unchanged. -/
theorem create_invalid_priority (σ : Type) (repo : TodoRepository σ)
    (req : CreateTodoRequest) (s : σ) (htitle : req.Title ≠ "")
    (hprio : req.Priority ≠ "high" ∧ req.Priority ≠ "medium" ∧ req.Priority ≠ "low" ∧
      req.Priority ≠ "") :
    todoService.Create repo.recording req (s, []) = (.error ErrInvalidPriority, (s, [])) := by
  have hv : isValidPriority req.Priority = false := by
    rw [← Bool.not_eq_true, isValidPriority_iff]
    tauto
  unfold todoService.Create
  rw [if_neg htitle, if_pos ⟨hprio.2.2.2, hv⟩]

/-- C2 amended, at title "Test Todo" and priority "invalid" on the example store. -/
theorem create_invalid_priority_witness :
    todoService.Create (NewTodoRepository exampleEngine).recording
        { Title := "Test Todo", Description := "", Priority := "invalid", DueDate := none,
          CategoryID := none } (exampleDB, []) =
      (.error ErrInvalidPriority, (exampleDB, [])) :=
  create_invalid_priority DB (NewTodoRepository exampleEngine)
    { Title := "Test Todo", Description := "", Priority := "invalid", DueDate := none,
      CategoryID := none } exampleDB (by decide) (by decide)

/-- C3. For a request with a non-empty title and an empty or valid priority, the
first repository call of `todoService.Create` is `Create`, the only `Create`
issued (the journal is that call, followed by the reload when it succeeds), and
the entity it hands over has priority "medium" when the request priority is
empty and the request priority otherwise, the title, description, due date and
category reference of the request, and `Completed = false`. -/
theorem create_hands_entity (σ : Type) (repo : TodoRepository σ)
    (req : CreateTodoRequest) (s : σ) (htitle : req.Title ≠ "")
    (hprio : req.Priority = "" ∨ req.Priority = "high" ∨ req.Priority = "medium" ∨
      req.Priority = "low") :
    ∃ e : Todo,
      ((todoService.Create repo.recording req (s, [])).2.2 = [TodoCall.Create e] ∨
        ∃ id, (todoService.Create repo.recording req (s, [])).2.2 =
          [TodoCall.Create e, TodoCall.GetByID id]) ∧
      e.Priority = (if req.Priority = "" then "medium" else req.Priority) ∧
      e.Title = req.Title ∧ e.Description = req.Description ∧ e.DueDate = req.DueDate ∧
      e.CategoryID = req.CategoryID ∧ e.Completed = false := by
  have hv : ¬ (req.Priority ≠ "" ∧ isValidPriority req.Priority = false) := by
    rintro ⟨hne, hf⟩
    rw [← Bool.not_eq_true, isValidPriority_iff] at hf
    tauto
  refine ⟨{ Todo.zero with
      Title := req.Title, Description := req.Description,
      Priority := if req.Priority = "" then "medium" else req.Priority,
      DueDate := req.DueDate, CategoryID := req.CategoryID }, ?_, rfl, rfl, rfl, rfl, rfl, rfl⟩
  unfold todoService.Create
  rw [if_neg htitle, if_neg hv]
  dsimp only
  by_cases hp : req.Priority = ""
  · simp only [hp, if_true, PriorityMedium]
    split
    · rename_i err s1 heq
      left
      simp only [TodoRepository.recording] at heq
      simp at heq
      rw [← heq.2]
    · rename_i todo s1 heq
      right
      simp only [TodoRepository.recording] at heq
      simp at heq
      rw [← heq.2]
      exact ⟨todo.ID, by simp [TodoRepository.recording]⟩
  · simp only [hp, if_false]
    split
    · rename_i err s1 heq
      left
      simp only [TodoRepository.recording] at heq
      simp at heq
      rw [← heq.2]
    · rename_i todo s1 heq
      right
      simp only [TodoRepository.recording] at heq
      simp at heq
      rw [← heq.2]
      exact ⟨todo.ID, by simp [TodoRepository.recording]⟩

/-- C3, at the request `{"title": "Buy milk"}` on the example store. -/
theorem create_hands_entity_witness :
    ∃ e : Todo,
      ((todoService.Create (NewTodoRepository exampleEngine).recording
          { Title := "Buy milk", Description := "", Priority := "", DueDate := none,
            CategoryID := none } (exampleDB, [])).2.2 = [TodoCall.Create e] ∨
        ∃ id, (todoService.Create (NewTodoRepository exampleEngine).recording
          { Title := "Buy milk", Description := "", Priority := "", DueDate := none,
            CategoryID := none } (exampleDB, [])).2.2 =
          [TodoCall.Create e, TodoCall.GetByID id]) ∧
      e.Priority = (if ("" : String) = "" then "medium" else "") ∧
      e.Title = "Buy milk" ∧ e.Description = "" ∧ e.DueDate = none ∧
      e.CategoryID = none ∧ e.Completed = false :=
  create_hands_entity DB (NewTodoRepository exampleEngine)
    { Title := "Buy milk", Description := "", Priority := "", DueDate := none,
      CategoryID := none } exampleDB (by decide) (by decide)

/-- C4. `categoryService.Create` with an empty name returns
`ErrCategoryNameRequired`, calls no repository method and leaves the store
unchanged. With a non-empty name it makes exactly one repository call, `Create`,
on a category whose name is the request name and whose color is the request color
when that is non-empty and "#3B82F6" otherwise, and its outcome is the outcome of
that call: the entity and the store as the repository left them, or the error of
the repository. On the relational store that call succeeds: the category
returned has the request name, that color and the next identifier of the table,
and the store afterwards is the store before with this very category appended to
the table and the sequence advanced; when no row already carries an identifier
above the sequence, looking the new identifier up in that store returns the
category that `Create` returned. -/
theorem category_create (σ : Type) (repo : CategoryRepository σ)
    (sortByName : List Category → List Category)
    (req : CreateCategoryRequest) (s : σ) (db : DB) :
    (req.Name = "" →
      categoryService.Create repo.recording req (s, []) =
        (.error ErrCategoryNameRequired, (s, []))) ∧
    (req.Name ≠ "" →
      (∃ c : Category,
        c.Name = req.Name ∧ c.Color = (if req.Color = "" then "#3B82F6" else req.Color) ∧
        (categoryService.Create repo.recording req (s, [])).2.2 = [CategoryCall.Create c] ∧
        categoryService.Create repo req s = repo.Create c s) ∧
      (∃ r : Category,
        categoryService.Create (NewCategoryRepository sortByName) req db =
          (.ok r, { db with
                    categories := db.categories ++ [r], categorySeq := db.categorySeq + 1 }) ∧
        r.Name = req.Name ∧
        r.Color = (if req.Color = "" then "#3B82F6" else req.Color) ∧
        r.ID = db.categorySeq + 1)) ∧
    (req.Name ≠ "" → (∀ x ∈ db.categories, x.ID ≤ db.categorySeq) →
      (categoryService.GetByID (NewCategoryRepository sortByName) (db.categorySeq + 1)
          (categoryService.Create (NewCategoryRepository sortByName) req db).2).1 =
        (categoryService.Create (NewCategoryRepository sortByName) req db).1) := by
  refine ⟨?_, ?_, ?_⟩
  · intro h
    simp [categoryService.Create, h]
  · intro h
    constructor
    · refine ⟨{ Category.zero with
          Name := req.Name, Color := if req.Color = "" then "#3B82F6" else req.Color },
        rfl, rfl, ?_, ?_⟩
      · unfold categoryService.Create
        rw [if_neg h]
        dsimp only
        by_cases hc : req.Color = ""
        · simp only [hc, if_true]
          split <;>
          · rename_i heq
            simp only [CategoryRepository.recording] at heq
            simp at heq
            rw [← heq.2]
        · simp only [hc, if_false]
          split <;>
          · rename_i heq
            simp only [CategoryRepository.recording] at heq
            simp at heq
            rw [← heq.2]
      · unfold categoryService.Create
        rw [if_neg h]
        dsimp only
        by_cases hc : req.Color = ""
        · simp only [hc, if_true]
          split <;>
          · rename_i heq
            rw [heq]
        · simp only [hc, if_false]
          split <;>
          · rename_i heq
            rw [heq]
    · obtain ⟨r, hr⟩ : ∃ r : Category, r =
          { ID := db.categorySeq + 1, Name := req.Name,
            Color := if req.Color = "" then "#3B82F6" else req.Color,
            CreatedAt := db.now, UpdatedAt := db.now } := ⟨_, rfl⟩
      exact ⟨r, create_category_on_store sortByName req db h r hr, by rw [hr], by rw [hr],
        by rw [hr]⟩
  · intro h hfresh
    obtain ⟨r, hr⟩ : ∃ r : Category, r =
        { ID := db.categorySeq + 1, Name := req.Name,
          Color := if req.Color = "" then "#3B82F6" else req.Color,
          CreatedAt := db.now, UpdatedAt := db.now } := ⟨_, rfl⟩
    have hcreate := create_category_on_store sortByName req db h r hr
    have hid : r.ID = db.categorySeq + 1 := by rw [hr]
    rw [hcreate]
    simp only [categoryService.GetByID, NewCategoryRepository, categoryRepository.GetByID,
      DB.firstCategory]
    rw [find_category_after_create db.categories r db.categorySeq hfresh hid]

/-- C4, on the example store: an empty name is refused with the store and the
journal untouched; the name "Work" without color is handed to the repository
once, and the example store then holds, after its one category, the category
returned, named "Work", colored "#3B82F6", with identifier 2, which a lookup of
identifier 2 returns. -/
theorem category_create_witness :
    categoryService.Create (NewCategoryRepository id).recording
        { Name := "", Color := "#FF0000" } (exampleDB, []) =
      (.error ErrCategoryNameRequired, (exampleDB, [])) ∧
    ((∃ c : Category,
        c.Name = "Work" ∧ c.Color = (if ("" : String) = "" then "#3B82F6" else "") ∧
        (categoryService.Create (NewCategoryRepository id).recording
          { Name := "Work", Color := "" } (exampleDB, [])).2.2 = [CategoryCall.Create c] ∧
        categoryService.Create (NewCategoryRepository id) { Name := "Work", Color := "" }
          exampleDB = (NewCategoryRepository id).Create c exampleDB) ∧
      (∃ r : Category,
        categoryService.Create (NewCategoryRepository id) { Name := "Work", Color := "" }
            exampleDB =
          (.ok r, { exampleDB with
                    categories := exampleDB.categories ++ [r],
                    categorySeq := exampleDB.categorySeq + 1 }) ∧
        r.Name = "Work" ∧
        r.Color = (if ("" : String) = "" then "#3B82F6" else "") ∧
        r.ID = exampleDB.categorySeq + 1)) ∧
    (categoryService.GetByID (NewCategoryRepository id) (exampleDB.categorySeq + 1)
        (categoryService.Create (NewCategoryRepository id) { Name := "Work", Color := "" }
          exampleDB).2).1 =
      (categoryService.Create (NewCategoryRepository id) { Name := "Work", Color := "" }
        exampleDB).1 :=
  ⟨(category_create DB (NewCategoryRepository id) id { Name := "", Color := "#FF0000" }
      exampleDB exampleDB).1 rfl,
    (category_create DB (NewCategoryRepository id) id { Name := "Work", Color := "" }
      exampleDB exampleDB).2.1 (by decide),
    (category_create DB (NewCategoryRepository id) id { Name := "Work", Color := "" }
      exampleDB exampleDB).2.2 (by decide) (by decide)⟩

/-- C5. `todoService.GetAll` makes exactly one repository call, `GetAll`, with
the filter whose page is 1 when the given page is ≤ 0 and the given page
otherwise, whose limit is 10 when the given limit is ≤ 0, 100 when it exceeds 100
and the given limit otherwise, and whose other fields are those given; a
response reports that page and that limit; the page is ≥ 1 and the limit lies
in 1..100. -/
theorem getAll_pagination (σ : Type) (repo : TodoRepository σ) (filter : TodoFilter) (s : σ) :
    (todoService.GetAll repo.recording filter (s, [])).2.2 =
      [TodoCall.GetAll
        { filter with
          Page := if filter.Page ≤ 0 then 1 else filter.Page
          Limit := if filter.Limit ≤ 0 then 10 else if filter.Limit > 100 then 100
            else filter.Limit }] ∧
    (∀ resp : PaginatedResponse, (todoService.GetAll repo filter s).1 = .ok resp →
      resp.Pagination.CurrentPage = (if filter.Page ≤ 0 then 1 else filter.Page) ∧
      resp.Pagination.PerPage =
        (if filter.Limit ≤ 0 then 10 else if filter.Limit > 100 then 100 else filter.Limit)) ∧
    1 ≤ (if filter.Page ≤ 0 then 1 else filter.Page) ∧
    1 ≤ (if filter.Limit ≤ 0 then 10 else if filter.Limit > 100 then 100 else filter.Limit) ∧
    (if filter.Limit ≤ 0 then 10 else if filter.Limit > 100 then 100 else filter.Limit) ≤ 100 := by
  have hnorm := normalizeFilter_eq filter
  refine ⟨?_, ?_, ?_, ?_, ?_⟩
  · unfold todoService.GetAll
    rw [hnorm]
    dsimp only
    split <;>
    · rename_i heq
      simp only [TodoRepository.recording] at heq
      simp at heq
      rw [← heq.2]
  · intro resp h
    unfold todoService.GetAll at h
    rw [hnorm] at h
    dsimp only at h
    split at h
    · simp at h
    · simp at h
      rw [← h]
      exact ⟨rfl, rfl⟩
  · split <;> omega
  · split_ifs <;> omega
  · split_ifs <;> omega

/-- C5, on the example store with page 0 and limit 0 (the defaults 1 and 10 are
queried and reported) and with page 2 and limit 500. -/
theorem getAll_pagination_witness :
    (todoService.GetAll (NewTodoRepository exampleEngine).recording
        { Search := "", CategoryID := none, Completed := none, Priority := "", Page := 0,
          Limit := 0, SortBy := "", SortOrder := "" } (exampleDB, [])).2.2 =
      [TodoCall.GetAll
        { Search := "", CategoryID := none, Completed := none, Priority := "", Page := 1,
          Limit := 10, SortBy := "", SortOrder := "" }] ∧
    (∃ resp : PaginatedResponse,
      (todoService.GetAll (NewTodoRepository exampleEngine)
        { Search := "", CategoryID := none, Completed := none, Priority := "", Page := 2,
          Limit := 500, SortBy := "", SortOrder := "" } exampleDB).1 = .ok resp ∧
      resp.Pagination.CurrentPage = 2 ∧ resp.Pagination.PerPage = 100) :=
  ⟨(getAll_pagination DB (NewTodoRepository exampleEngine)
      { Search := "", CategoryID := none, Completed := none, Priority := "", Page := 0,
        Limit := 0, SortBy := "", SortOrder := "" } exampleDB).1,
    ⟨_, rfl,
      (getAll_pagination DB (NewTodoRepository exampleEngine)
        { Search := "", CategoryID := none, Completed := none, Priority := "", Page := 2,
          Limit := 500, SortBy := "", SortOrder := "" } exampleDB).2.1 _ rfl⟩⟩

/-- Below `2 ^ 53` the page count is exact: when the repository counts `total`
todos with `0 ≤ total < 2 ^ 53`, `todoService.GetAll` reports that count and
`TotalPages = ⌈total / limit⌉` for the effective limit, the least integer `n`
with `total ≤ n * limit`. -/
theorem getAll_totalPages_exact (σ : Type) (repo : TodoRepository σ) (filter : TodoFilter)
    (s s1 : σ) (todos : List Todo) (total : Int)
    (hget : repo.GetAll (normalizeFilter filter) s = (.ok (todos, total), s1))
    (h0 : 0 ≤ total) (h : total < 2 ^ (53 : ℕ)) :
    ∃ resp : PaginatedResponse,
      todoService.GetAll repo filter s = (.ok resp, s1) ∧
      resp.Pagination.Total = total ∧
      resp.Pagination.TotalPages = ⌈(total : ℚ) / ((normalizeFilter filter).Limit : ℚ)⌉ ∧
      total ≤ resp.Pagination.TotalPages * (normalizeFilter filter).Limit ∧
      ∀ n : Int, total ≤ n * (normalizeFilter filter).Limit → resp.Pagination.TotalPages ≤ n := by
  obtain ⟨hl, hu⟩ := normalizeFilter_limit_bounds filter
  have hlq : (0 : ℚ) < ((normalizeFilter filter).Limit : ℚ) := by
    exact_mod_cast (by omega : (0 : ℤ) < (normalizeFilter filter).Limit)
  refine ⟨{ Data := todos,
             Pagination :=
               { CurrentPage := (normalizeFilter filter).Page
                 PerPage := (normalizeFilter filter).Limit
                 Total := total
                 TotalPages := totalPages total (normalizeFilter filter).Limit } },
    by simp only [todoService.GetAll, hget], rfl, ?_, ?_, ?_⟩
  · exact totalPages_exact total _ h0 h hl hu
  · dsimp only
    rw [totalPages_exact total _ h0 h hl hu]
    have h1 := Int.le_ceil ((total : ℚ) / ((normalizeFilter filter).Limit : ℚ))
    rw [div_le_iff₀ hlq] at h1
    exact_mod_cast h1
  · intro n hn
    dsimp only
    rw [totalPages_exact total _ h0 h hl hu, Int.ceil_le, div_le_iff₀ hlq]
    exact_mod_cast hn

/-- The exact page count, at the values of the service test: 2 todos counted,
page 1 and limit 10. -/
theorem getAll_totalPages_exact_witness :
    ∃ resp : PaginatedResponse,
      todoService.GetAll (MockTodoRepository [] 2)
        { Search := "", CategoryID := none, Completed := none, Priority := "", Page := 1,
          Limit := 10, SortBy := "", SortOrder := "" } () = (.ok resp, ()) ∧
      resp.Pagination.Total = 2 ∧
      resp.Pagination.TotalPages =
        ⌈((2 : Int) : ℚ) / (((normalizeFilter
          { Search := "", CategoryID := none, Completed := none, Priority := "", Page := 1,
            Limit := 10, SortBy := "", SortOrder := "" }).Limit : Int) : ℚ)⌉ ∧
      2 ≤ resp.Pagination.TotalPages * (normalizeFilter
          { Search := "", CategoryID := none, Completed := none, Priority := "", Page := 1,
            Limit := 10, SortBy := "", SortOrder := "" }).Limit ∧
      ∀ n : Int, 2 ≤ n * (normalizeFilter
          { Search := "", CategoryID := none, Completed := none, Priority := "", Page := 1,
            Limit := 10, SortBy := "", SortOrder := "" }).Limit → resp.Pagination.TotalPages ≤ n :=
  getAll_totalPages_exact Unit (MockTodoRepository [] 2)
    { Search := "", CategoryID := none, Completed := none, Priority := "", Page := 1,
      Limit := 10, SortBy := "", SortOrder := "" } () () [] 2 rfl (by decide) (by decide)

/-- C6, at the failing input. The repository counts `2 ^ 53 + 1 =
9007199254740993` todos and the limit is 1: `todoService.GetAll` reports the
count as it is and 9007199254740992 pages, one less than the ceiling
`⌈total / limit⌉ = 9007199254740993`, so that `TotalPages × limit < total`. -/
theorem getAll_totalPages_large_total :
    todoService.GetAll (MockTodoRepository [] 9007199254740993)
        { Search := "", CategoryID := none, Completed := none, Priority := "", Page := 1,
          Limit := 1, SortBy := "", SortOrder := "" } () =
      (.ok { Data := [],
             Pagination := { CurrentPage := 1, PerPage := 1, Total := 9007199254740993,
                             TotalPages := 9007199254740992 } }, ()) ∧
    ⌈((9007199254740993 : Int) : ℚ) / ((1 : Int) : ℚ)⌉ = 9007199254740993 ∧
    (9007199254740992 : Int) * 1 < 9007199254740993 := by
  refine ⟨?_, ?_, by norm_num⟩
  · have hn : normalizeFilter
        { Search := "", CategoryID := none, Completed := none, Priority := "", Page := 1,
          Limit := 1, SortBy := "", SortOrder := "" } =
        { Search := "", CategoryID := none, Completed := none, Priority := "", Page := 1,
          Limit := 1, SortBy := "", SortOrder := "" } := by decide
    simp only [todoService.GetAll, hn, MockTodoRepository, totalPages_failing]
  · rw [Int.ceil_eq_iff]
    norm_num

/-- C7. Given an existing todo and a request whose priority is empty or valid,
`todoService.Update` looks the todo up and then calls the repository's `Update`
(the only `Update`; a reload follows when it succeeds) with an entity that has the
identifier of the existing one, the request's title, description and priority
where these are non-empty and the prior values otherwise, the request's
completed flag, due date and category reference where the pointer is non-nil
(whatever it points to) and the prior values otherwise, and every remaining
field as before. Given an existing category, `categoryService.Update` hands to
`Update` the category with name and color overwritten by the non-empty request
values only. -/
theorem update_keeps_omitted_fields (σ τ : Type) (repo : TodoRepository σ)
    (crepo : CategoryRepository τ) (id : Nat) (req : UpdateTodoRequest) (s s1 : σ) (t : Todo)
    (cid : Nat) (creq : UpdateCategoryRequest) (u u1 : τ) (c : Category)
    (hget : repo.GetByID id s = (.ok t, s1))
    (hprio : req.Priority = "" ∨ req.Priority = "high" ∨ req.Priority = "medium" ∨
      req.Priority = "low")
    (hcget : crepo.GetByID cid u = (.ok c, u1)) :
    (∃ (e : Todo) (rest : List TodoCall),
      (todoService.Update repo.recording id req (s, [])).2.2 =
        TodoCall.GetByID id :: TodoCall.Update e :: rest ∧
      (rest = [] ∨ ∃ i, rest = [TodoCall.GetByID i]) ∧
      e.ID = t.ID ∧
      e.Title = (if req.Title = "" then t.Title else req.Title) ∧
      e.Description = (if req.Description = "" then t.Description else req.Description) ∧
      e.Priority = (if req.Priority = "" then t.Priority else req.Priority) ∧
      e.Completed = req.Completed.getD t.Completed ∧
      e.DueDate = (if req.DueDate = none then t.DueDate else req.DueDate) ∧
      e.CategoryID = (if req.CategoryID = none then t.CategoryID else req.CategoryID) ∧
      e.Category = t.Category ∧ e.CreatedAt = t.CreatedAt ∧ e.UpdatedAt = t.UpdatedAt) ∧
    (∃ k : Category,
      (categoryService.Update crepo.recording cid creq (u, [])).2.2 =
        [CategoryCall.GetByID cid, CategoryCall.Update k] ∧
      k.ID = c.ID ∧
      k.Name = (if creq.Name = "" then c.Name else creq.Name) ∧
      k.Color = (if creq.Color = "" then c.Color else creq.Color) ∧
      k.CreatedAt = c.CreatedAt ∧ k.UpdatedAt = c.UpdatedAt) := by
  have hv : ¬ (req.Priority ≠ "" ∧ isValidPriority req.Priority = false) := by
    rintro ⟨hne, hf⟩
    rw [← Bool.not_eq_true, isValidPriority_iff] at hf
    tauto
  constructor
  · obtain ⟨e, he⟩ : ∃ e, applyTodoUpdate t req = some e := by
      unfold applyTodoUpdate
      dsimp only
      rw [if_neg hv]
      exact ⟨_, rfl⟩
    have hfields : e.ID = t.ID ∧
        e.Title = (if req.Title = "" then t.Title else req.Title) ∧
        e.Description = (if req.Description = "" then t.Description else req.Description) ∧
        e.Priority = (if req.Priority = "" then t.Priority else req.Priority) ∧
        e.Completed = req.Completed.getD t.Completed ∧
        e.DueDate = (if req.DueDate = none then t.DueDate else req.DueDate) ∧
        e.CategoryID = (if req.CategoryID = none then t.CategoryID else req.CategoryID) ∧
        e.Category = t.Category ∧ e.CreatedAt = t.CreatedAt ∧ e.UpdatedAt = t.UpdatedAt := by
      unfold applyTodoUpdate at he
      dsimp only at he
      rw [if_neg hv] at he
      simp only [Option.some.injEq] at he
      subst he
      rcases req with ⟨rt, rd, rc, rp, rdd, rcid⟩
      cases rc <;> cases rdd <;> cases rcid <;>
        by_cases h1 : rt = "" <;> by_cases h2 : rd = "" <;> by_cases h3 : rp = "" <;>
        simp [h1, h2, h3]
    have hrun : ∃ rest, (todoService.Update repo.recording id req (s, [])).2.2 =
        TodoCall.GetByID id :: TodoCall.Update e :: rest ∧
        (rest = [] ∨ ∃ i, rest = [TodoCall.GetByID i]) := by
      unfold todoService.Update
      simp only [TodoRepository.recording, hget, he]
      rcases hu : repo.Update e s1 with ⟨_ | r, s2⟩
      · exact ⟨[], by simp, Or.inl rfl⟩
      · exact ⟨[TodoCall.GetByID r.ID], by simp, Or.inr ⟨_, rfl⟩⟩
    obtain ⟨rest, hlog, hrest⟩ := hrun
    exact ⟨e, rest, hlog, hrest, hfields⟩
  · refine ⟨applyCategoryUpdate c creq, ?_, ?_⟩
    · unfold categoryService.Update
      simp only [CategoryRepository.recording, hcget]
      rcases hu : crepo.Update (applyCategoryUpdate c creq) u1 with ⟨_ | r, u2⟩ <;> simp
    · unfold applyCategoryUpdate
      by_cases h1 : creq.Name = "" <;> by_cases h2 : creq.Color = "" <;> simp [h1, h2]

/-- C7, on the example store: todo 2 (completed, with a due date) updated with
`{"completed": false, "category_id": 0}`, and category 1 updated with a name only. -/
theorem update_keeps_omitted_fields_witness :
    (∃ (e : Todo) (rest : List TodoCall),
      (todoService.Update (NewTodoRepository exampleEngine).recording 2
        { Title := "", Description := "", Completed := some false, Priority := "",
          DueDate := none, CategoryID := some 0 } (exampleDB, [])).2.2 =
        TodoCall.GetByID 2 :: TodoCall.Update e :: rest ∧
      (rest = [] ∨ ∃ i, rest = [TodoCall.GetByID i]) ∧
      e.ID = 2 ∧ e.Title = "Write report" ∧ e.Description = "quarterly" ∧
      e.Priority = "high" ∧ e.Completed = false ∧ e.DueDate = some 20 ∧
      e.CategoryID = some 0 ∧ e.Category = none ∧ e.CreatedAt = 6 ∧ e.UpdatedAt = 7) ∧
    (∃ k : Category,
      (categoryService.Update (NewCategoryRepository id).recording 1
        { Name := "House", Color := "" } (exampleDB, [])).2.2 =
        [CategoryCall.GetByID 1, CategoryCall.Update k] ∧
      k.ID = 1 ∧ k.Name = "House" ∧ k.Color = "#3B82F6" ∧ k.CreatedAt = 1 ∧
      k.UpdatedAt = 1) :=
  update_keeps_omitted_fields DB DB (NewTodoRepository exampleEngine) (NewCategoryRepository id)
    2 { Title := "", Description := "", Completed := some false, Priority := "",
        DueDate := none, CategoryID := some 0 } exampleDB exampleDB
    { ID := 2, Title := "Write report", Description := "quarterly", Completed := true,
      Priority := "high", DueDate := some 20, CategoryID := none, Category := none,
      CreatedAt := 6, UpdatedAt := 7 }
    1 { Name := "House", Color := "" } exampleDB exampleDB
    { ID := 1, Name := "Home", Color := "#3B82F6", CreatedAt := 1, UpdatedAt := 1 }
    rfl (by decide) rfl

/-- C8. For an existing todo `t`, `todoService.ToggleComplete` looks it up and
calls `Update` with `t` whose `Completed` is negated and whose other fields are
untouched; when that call succeeds and leaves the entity as handed over, this
entity is returned. When the store reflects the update (the next lookup of the
identifier yields an entity `t2` with the negated flag), a second
`ToggleComplete` hands `t2` with the flag negated again to `Update` and returns
an entity whose `Completed` is that of `t`. -/
theorem toggleComplete_twice (σ : Type) (repo : TodoRepository σ) (id : Nat)
    (s s1 s2 s3 s4 : σ) (t t2 : Todo)
    (hget : repo.GetByID id s = (.ok t, s1))
    (hupd : repo.Update { t with Completed := !t.Completed } s1 =
      (.ok { t with Completed := !t.Completed }, s2))
    (hget2 : repo.GetByID id s2 = (.ok t2, s3))
    (hrefl : t2.Completed = !t.Completed)
    (hupd2 : repo.Update { t2 with Completed := !t2.Completed } s3 =
      (.ok { t2 with Completed := !t2.Completed }, s4)) :
    todoService.ToggleComplete repo.recording id (s, []) =
      (.ok { t with Completed := !t.Completed },
        (s2, [TodoCall.GetByID id, TodoCall.Update { t with Completed := !t.Completed }])) ∧
    todoService.ToggleComplete repo.recording id (s2, []) =
      (.ok { t2 with Completed := t.Completed },
        (s4, [TodoCall.GetByID id, TodoCall.Update { t2 with Completed := t.Completed }])) := by
  have h2 : (!t2.Completed) = t.Completed := by rw [hrefl]; simp
  rw [h2] at hupd2
  constructor
  · simp [todoService.ToggleComplete, TodoRepository.recording, hget, hupd]
  · simp [todoService.ToggleComplete, TodoRepository.recording, hget2, hupd2, h2]

/-- C8, on the example store: todo 1 (not completed) toggled twice comes back as
it was. -/
theorem toggleComplete_twice_witness :
    todoService.ToggleComplete (NewTodoRepository exampleEngine).recording 1 (exampleDB, []) =
      (.ok { exampleTodo with Completed := !exampleTodo.Completed },
        ((todoRepository.Update { exampleTodo with Completed := true } exampleDB).2,
          [TodoCall.GetByID 1,
            TodoCall.Update { exampleTodo with Completed := !exampleTodo.Completed }])) ∧
    todoService.ToggleComplete (NewTodoRepository exampleEngine).recording 1
        ((todoRepository.Update { exampleTodo with Completed := true } exampleDB).2, []) =
      (.ok { { exampleTodo with Completed := true } with Completed := exampleTodo.Completed },
        (exampleDB,
          [TodoCall.GetByID 1,
            TodoCall.Update
              { { exampleTodo with Completed := true } with
                Completed := exampleTodo.Completed }])) :=
  toggleComplete_twice DB (NewTodoRepository exampleEngine) 1 exampleDB exampleDB
    (todoRepository.Update { exampleTodo with Completed := true } exampleDB).2
    (todoRepository.Update { exampleTodo with Completed := true } exampleDB).2
    exampleDB exampleTodo { exampleTodo with Completed := true } rfl rfl rfl rfl rfl

/-- C9. On the relational store, for every identifier carried by a row of table
`todos`, `todoService.Delete` succeeds; in the store it leaves, `GetByID` and a
second `Delete` of that identifier return `ErrTodoNotFound` (leaving the store as
it is), and `GetByID` of any other identifier returns what it returned before. -/
theorem delete_then_not_found (q : QueryEngine) (db : DB) (id : Nat) (t : Todo)
    (hmem : t ∈ db.todos) (hid : t.ID = id) :
    (todoService.Delete (NewTodoRepository q) id db).1 = .ok () ∧
    todoService.GetByID (NewTodoRepository q) id
        (todoService.Delete (NewTodoRepository q) id db).2 =
      (.error ErrTodoNotFound, (todoService.Delete (NewTodoRepository q) id db).2) ∧
    todoService.Delete (NewTodoRepository q) id
        (todoService.Delete (NewTodoRepository q) id db).2 =
      (.error ErrTodoNotFound, (todoService.Delete (NewTodoRepository q) id db).2) ∧
    ∀ other : Nat, other ≠ id →
      (todoService.GetByID (NewTodoRepository q) other
          (todoService.Delete (NewTodoRepository q) id db).2).1 =
        (todoService.GetByID (NewTodoRepository q) other db).1 := by
  obtain ⟨r, hr⟩ := find_of_mem db.todos id t hmem hid
  have hdel : todoService.Delete (NewTodoRepository q) id db =
      (.ok (), { db with todos := db.todos.filter (fun t => !(t.ID == id)) }) := by
    simp [todoService.Delete, NewTodoRepository, todoRepository.GetByID, DB.firstTodo, hr,
      todoRepository.Delete, DB.deleteTodo]
  have hgone : DB.firstTodo id { db with todos := db.todos.filter (fun t => !(t.ID == id)) } =
      .error (Error.storage "record not found") := by
    unfold DB.firstTodo
    dsimp only
    rw [find_after_delete_same]
  rw [hdel]
  refine ⟨rfl, ?_, ?_, ?_⟩
  · simp only [todoService.GetByID, NewTodoRepository, todoRepository.GetByID, hgone]
  · simp only [todoService.Delete, NewTodoRepository, todoRepository.GetByID, hgone]
  · intro other hne
    have hkept : DB.firstTodo other
        { db with todos := db.todos.filter (fun t => !(t.ID == id)) } =
        DB.firstTodo other db := by
      unfold DB.firstTodo
      dsimp only
      rw [find_after_delete_other db.todos id other hne]
    simp only [todoService.GetByID, NewTodoRepository, todoRepository.GetByID, hkept]
    cases DB.firstTodo other db <;> simp [DB.preloadCategory]

/-- C9, on the example store, for identifier 1. -/
theorem delete_then_not_found_witness :
    (todoService.Delete (NewTodoRepository exampleEngine) 1 exampleDB).1 = .ok () ∧
    todoService.GetByID (NewTodoRepository exampleEngine) 1
        (todoService.Delete (NewTodoRepository exampleEngine) 1 exampleDB).2 =
      (.error ErrTodoNotFound, (todoService.Delete (NewTodoRepository exampleEngine) 1 exampleDB).2) ∧
    todoService.Delete (NewTodoRepository exampleEngine) 1
        (todoService.Delete (NewTodoRepository exampleEngine) 1 exampleDB).2 =
      (.error ErrTodoNotFound, (todoService.Delete (NewTodoRepository exampleEngine) 1 exampleDB).2) ∧
    ∀ other : Nat, other ≠ 1 →
      (todoService.GetByID (NewTodoRepository exampleEngine) other
          (todoService.Delete (NewTodoRepository exampleEngine) 1 exampleDB).2).1 =
        (todoService.GetByID (NewTodoRepository exampleEngine) other exampleDB).1 :=
  delete_then_not_found exampleEngine exampleDB 1 { exampleTodo with Category := none }
    (by decide) rfl

/-- C10. When the lookup that opens the operation fails, with whatever error,
`GetByID`, `Update`, `Delete` and `ToggleComplete` of the todo service return
`ErrTodoNotFound`, and `GetByID`, `Update` and `Delete` of the category service
return `ErrCategoryNotFound`: no entity is returned and the lookup is the only
repository call made. -/
theorem lookup_failure_is_not_found (σ τ : Type) (repo : TodoRepository σ)
    (crepo : CategoryRepository τ) (id : Nat) (req : UpdateTodoRequest) (s s1 : σ)
    (err : Error) (cid : Nat) (creq : UpdateCategoryRequest) (u u1 : τ) (cerr : Error)
    (hget : repo.GetByID id s = (.error err, s1))
    (hcget : crepo.GetByID cid u = (.error cerr, u1)) :
    todoService.GetByID repo.recording id (s, []) =
      (.error ErrTodoNotFound, (s1, [TodoCall.GetByID id])) ∧
    todoService.Update repo.recording id req (s, []) =
      (.error ErrTodoNotFound, (s1, [TodoCall.GetByID id])) ∧
    todoService.Delete repo.recording id (s, []) =
      (.error ErrTodoNotFound, (s1, [TodoCall.GetByID id])) ∧
    todoService.ToggleComplete repo.recording id (s, []) =
      (.error ErrTodoNotFound, (s1, [TodoCall.GetByID id])) ∧
    categoryService.GetByID crepo.recording cid (u, []) =
      (.error ErrCategoryNotFound, (u1, [CategoryCall.GetByID cid])) ∧
    categoryService.Update crepo.recording cid creq (u, []) =
      (.error ErrCategoryNotFound, (u1, [CategoryCall.GetByID cid])) ∧
    categoryService.Delete crepo.recording cid (u, []) =
      (.error ErrCategoryNotFound, (u1, [CategoryCall.GetByID cid])) := by
  refine ⟨?_, ?_, ?_, ?_, ?_, ?_, ?_⟩
  · simp [todoService.GetByID, TodoRepository.recording, hget]
  · simp [todoService.Update, TodoRepository.recording, hget]
  · simp [todoService.Delete, TodoRepository.recording, hget]
  · simp [todoService.ToggleComplete, TodoRepository.recording, hget]
  · simp [categoryService.GetByID, CategoryRepository.recording, hcget]
  · simp [categoryService.Update, CategoryRepository.recording, hcget]
  · simp [categoryService.Delete, CategoryRepository.recording, hcget]

/-- C10, on the example store, where no todo and no category has identifier 999:
the storage error "record not found" is replaced by the sentinel. -/
theorem lookup_failure_is_not_found_witness :
    todoService.GetByID (NewTodoRepository exampleEngine).recording 999 (exampleDB, []) =
      (.error ErrTodoNotFound, (exampleDB, [TodoCall.GetByID 999])) ∧
    todoService.Update (NewTodoRepository exampleEngine).recording 999
        { Title := "Updated", Description := "", Completed := some true, Priority := "low",
          DueDate := none, CategoryID := none } (exampleDB, []) =
      (.error ErrTodoNotFound, (exampleDB, [TodoCall.GetByID 999])) ∧
    todoService.Delete (NewTodoRepository exampleEngine).recording 999 (exampleDB, []) =
      (.error ErrTodoNotFound, (exampleDB, [TodoCall.GetByID 999])) ∧
    todoService.ToggleComplete (NewTodoRepository exampleEngine).recording 999 (exampleDB, []) =
      (.error ErrTodoNotFound, (exampleDB, [TodoCall.GetByID 999])) ∧
    categoryService.GetByID (NewCategoryRepository id).recording 999 (exampleDB, []) =
      (.error ErrCategoryNotFound, (exampleDB, [CategoryCall.GetByID 999])) ∧
    categoryService.Update (NewCategoryRepository id).recording 999
        { Name := "x", Color := "" } (exampleDB, []) =
      (.error ErrCategoryNotFound, (exampleDB, [CategoryCall.GetByID 999])) ∧
    categoryService.Delete (NewCategoryRepository id).recording 999 (exampleDB, []) =
      (.error ErrCategoryNotFound, (exampleDB, [CategoryCall.GetByID 999])) :=
  lookup_failure_is_not_found DB DB (NewTodoRepository exampleEngine)
    (NewCategoryRepository id) 999
    { Title := "Updated", Description := "", Completed := some true, Priority := "low",
      DueDate := none, CategoryID := none } exampleDB exampleDB
    (Error.storage "record not found") 999 { Name := "x", Color := "" } exampleDB exampleDB
    (Error.storage "record not found") rfl rfl

/-- C11, at the failing input. On the example store, where todo 1 exists,
`PUT /todos/1` with the body `{"priority": "urgent"}` is answered with status 404
and the message of `ErrInvalidPriority`, not with 400; `POST /todos` with the
same priority is answered with 400. -/
theorem update_handler_invalid_priority_status :
    TodoHandler.Update (NewTodoService (NewTodoRepository exampleEngine))
        { params := [("id", "1")], query := [], createBody := .error "EOF",
          updateBody := .ok { Title := "", Description := "", Completed := none,
                              Priority := "urgent", DueDate := none, CategoryID := none } }
        exampleDB =
      ({ status := 404, body := .error "invalid priority value" }, exampleDB) ∧
    TodoHandler.Create (NewTodoService (NewTodoRepository exampleEngine))
        { params := [], query := [],
          createBody := .ok { Title := "Buy milk", Description := "", Priority := "urgent",
                              DueDate := none, CategoryID := none },
          updateBody := .error "EOF" }
        exampleDB =
      ({ status := 400, body := .error "invalid priority value" }, exampleDB) := by
  decide

/-- C12. On the relational store, when every stored todo has its priority among
"high", "medium" and "low", this is still so in the store left by
`todoService.Create`, `Update`, `ToggleComplete` and `Delete`, for every request
and identifier, whether the operation succeeds or fails. -/
theorem priority_invariant (q : QueryEngine) (db : DB) (hvalid : db.PrioritiesValid)
    (creq : CreateTodoRequest) (id : Nat) (ureq : UpdateTodoRequest) :
    (todoService.Create (NewTodoRepository q) creq db).2.PrioritiesValid ∧
    (todoService.Update (NewTodoRepository q) id ureq db).2.PrioritiesValid ∧
    (todoService.ToggleComplete (NewTodoRepository q) id db).2.PrioritiesValid ∧
    (todoService.Delete (NewTodoRepository q) id db).2.PrioritiesValid := by
  refine ⟨?_, ?_, ?_, ?_⟩
  · rcases create_on_store q creq db with ⟨err, h, _⟩ | ⟨e, r, he, h⟩
    · rw [h]
      exact hvalid
    · rw [h]
      intro x hx
      rcases createTodo_mem e db x hx with hx | hx
      · exact hvalid x hx
      · rw [hx]
        exact he
  · rcases update_on_store q id ureq db with ⟨err, h, _⟩ | ⟨row, e, r, hmem, hid, hm, h⟩
    · rw [h]
      exact hvalid
    · rw [h]
      intro x hx
      rcases saveTodo_mem e db x hx with hx | hx
      · exact hvalid x hx
      · rw [hx]
        rcases (applyTodoUpdate_some _ e ureq hm).2 with hp | hp
        · have := hvalid row hmem
          rw [(preloadCategory_fields db row).2.2.2.2.1] at hp
          show e.Priority = "high" ∨ e.Priority = "medium" ∨ e.Priority = "low"
          rw [hp]
          exact this
        · exact hp
  · rcases toggle_on_store q id db with h | ⟨row, hmem, hid, h⟩
    · rw [h]
      exact hvalid
    · rw [h]
      intro x hx
      rcases saveTodo_mem _ db x hx with hx | hx
      · exact hvalid x hx
      · rw [hx]
        have := hvalid row hmem
        show (db.preloadCategory row).Priority = "high" ∨ _
        rw [(preloadCategory_fields db row).2.2.2.2.1]
        exact this
  · rcases delete_on_store q id db with h | h
    · rw [h]
      exact hvalid
    · rw [h]
      intro x hx
      unfold DB.deleteTodo at hx
      exact hvalid x (List.mem_of_mem_filter hx)

/-- C12, on the example store: a creation without priority, an update of todo 2
to priority "low", a toggle and a deletion of todo 2. -/
theorem priority_invariant_witness :
    exampleDB.PrioritiesValid ∧
    (todoService.Create (NewTodoRepository exampleEngine)
        { Title := "Call", Description := "", Priority := "", DueDate := none,
          CategoryID := none } exampleDB).2.PrioritiesValid ∧
    (todoService.Update (NewTodoRepository exampleEngine) 2
        { Title := "", Description := "", Completed := none, Priority := "low",
          DueDate := none, CategoryID := none } exampleDB).2.PrioritiesValid ∧
    (todoService.ToggleComplete (NewTodoRepository exampleEngine) 2 exampleDB).2.PrioritiesValid ∧
    (todoService.Delete (NewTodoRepository exampleEngine) 2 exampleDB).2.PrioritiesValid :=
  ⟨by unfold DB.PrioritiesValid; decide,
    priority_invariant exampleEngine exampleDB (by unfold DB.PrioritiesValid; decide)
      { Title := "Call", Description := "", Priority := "", DueDate := none,
        CategoryID := none } 2
      { Title := "", Description := "", Completed := none, Priority := "low",
        DueDate := none, CategoryID := none }⟩

/-- C13, as stated, fails: the lookup that ends `todoService.Create` and
`todoService.Update` runs after the row is written. On the example store, with a
connection that is lost once the write has gone through, `Create` with the title
"Buy bread" and `Update` of todo 1 with that title return the error of that
lookup, while the store holds the new row 3, respectively the new title of row
1: it is not the store the call started from. -/
theorem no_side_effect_on_error_counterexample :
    todoService.Create (withConnectionLostAfterWrite (NewTodoRepository exampleEngine))
        { Title := "Buy bread", Description := "", Priority := "", DueDate := none,
          CategoryID := none } (exampleDB, false) =
      (.error (Error.storage "driver: bad connection"),
        ({ exampleDB with
           todos := exampleDB.todos ++
             [{ ID := 3, Title := "Buy bread", Description := "", Completed := false,
                Priority := "medium", DueDate := none, CategoryID := none, Category := none,
                CreatedAt := 10, UpdatedAt := 10 }],
           todoSeq := 3 }, true)) ∧
    todoService.Update (withConnectionLostAfterWrite (NewTodoRepository exampleEngine)) 1
        { Title := "Buy bread", Description := "", Completed := none, Priority := "",
          DueDate := none, CategoryID := none } (exampleDB, false) =
      (.error (Error.storage "driver: bad connection"),
        ({ exampleDB with
           todos :=
             [{ ID := 1, Title := "Buy bread", Description := "", Completed := false,
                Priority := "medium", DueDate := none, CategoryID := some 1, Category := none,
                CreatedAt := 5, UpdatedAt := 5 },
              { ID := 2, Title := "Write report", Description := "quarterly", Completed := true,
                Priority := "high", DueDate := some 20, CategoryID := none, Category := none,
                CreatedAt := 6, UpdatedAt := 7 }] }, true)) ∧
    (todoService.Create (withConnectionLostAfterWrite (NewTodoRepository exampleEngine))
        { Title := "Buy bread", Description := "", Priority := "", DueDate := none,
          CategoryID := none } (exampleDB, false)).2.1 ≠ exampleDB ∧
    (todoService.Update (withConnectionLostAfterWrite (NewTodoRepository exampleEngine)) 1
        { Title := "Buy bread", Description := "", Completed := none, Priority := "",
          DueDate := none, CategoryID := none } (exampleDB, false)).2.1 ≠ exampleDB := by
  decide

/-- C13, amended: the errors raised by validation and by the lookup that opens
the operation leave no write behind, with any repository. `todoService.Create`
with an empty title, or with a priority that is neither empty nor one of "high",
"medium", "low", returns `ErrTodoTitleRequired` or `ErrInvalidPriority` without a
repository call, the store as it was. When the opening lookup fails, `Update`,
`Delete` and `ToggleComplete` of the todo service return `ErrTodoNotFound`, and
`Update` and `Delete` of the category service `ErrCategoryNotFound`, the lookup
being the only repository call and the store being as the lookup left it.
`todoService.Update` of a todo that the lookup finds, with a priority that is
neither empty nor one of the three, returns `ErrInvalidPriority` with the lookup
as the only repository call, whatever else the request supplies.
`categoryService.Create` with an empty name returns `ErrCategoryNameRequired`
without a repository call. The lookups of the repositories over the relational
store leave the store as it is, so that there the store after each of these
failures is exactly the store before: in particular `todoService.Update` of a
stored todo with such a priority returns `ErrInvalidPriority`, the store is the
one before the call and the todo is looked up as before. -/
theorem no_side_effect_on_error (σ τ : Type) (repo : TodoRepository σ)
    (crepo : CategoryRepository τ) (q : QueryEngine)
    (sortByName : List Category → List Category) (s : σ) (u : τ) (db : DB)
    (treq : CreateTodoRequest) (id : Nat) (ureq : UpdateTodoRequest)
    (creq : CreateCategoryRequest) (cid : Nat) (cureq : UpdateCategoryRequest) :
    (treq.Title = "" ∨ (treq.Priority ≠ "" ∧ treq.Priority ≠ "high" ∧
        treq.Priority ≠ "medium" ∧ treq.Priority ≠ "low") →
      ∃ err, todoService.Create repo.recording treq (s, []) = (.error err, (s, [])) ∧
        (err = ErrTodoTitleRequired ∨ err = ErrInvalidPriority)) ∧
    (∀ e s1, repo.GetByID id s = (.error e, s1) →
      todoService.Update repo.recording id ureq (s, []) =
        (.error ErrTodoNotFound, (s1, [TodoCall.GetByID id])) ∧
      todoService.Delete repo.recording id (s, []) =
        (.error ErrTodoNotFound, (s1, [TodoCall.GetByID id])) ∧
      todoService.ToggleComplete repo.recording id (s, []) =
        (.error ErrTodoNotFound, (s1, [TodoCall.GetByID id]))) ∧
    (∀ t s1, repo.GetByID id s = (.ok t, s1) → ureq.Priority ≠ "" →
      ureq.Priority ≠ "high" → ureq.Priority ≠ "medium" → ureq.Priority ≠ "low" →
      todoService.Update repo.recording id ureq (s, []) =
        (.error ErrInvalidPriority, (s1, [TodoCall.GetByID id]))) ∧
    (creq.Name = "" →
      categoryService.Create crepo.recording creq (u, []) =
        (.error ErrCategoryNameRequired, (u, []))) ∧
    (∀ e u1, crepo.GetByID cid u = (.error e, u1) →
      categoryService.Update crepo.recording cid cureq (u, []) =
        (.error ErrCategoryNotFound, (u1, [CategoryCall.GetByID cid])) ∧
      categoryService.Delete crepo.recording cid (u, []) =
        (.error ErrCategoryNotFound, (u1, [CategoryCall.GetByID cid]))) ∧
    ((NewTodoRepository q).GetByID id db).2 = db ∧
    ((NewCategoryRepository sortByName).GetByID cid db).2 = db ∧
    (∀ row, row ∈ db.todos → row.ID = id → ureq.Priority ≠ "" →
      ureq.Priority ≠ "high" → ureq.Priority ≠ "medium" → ureq.Priority ≠ "low" →
      todoService.Update (NewTodoRepository q) id ureq db = (.error ErrInvalidPriority, db) ∧
      (todoService.GetByID (NewTodoRepository q) id db).1 =
        (todoService.GetByID (NewTodoRepository q) id
          (todoService.Update (NewTodoRepository q) id ureq db).2).1) := by
  have hbad : ∀ p : Priority, p ≠ "high" → p ≠ "medium" → p ≠ "low" →
      isValidPriority p = false := by
    intro p h1 h2 h3
    rw [← Bool.not_eq_true, isValidPriority_iff]
    tauto
  refine ⟨?_, ?_, ?_, ?_, ?_, ?_, ?_, ?_⟩
  · intro h
    apply create_invalid_journal
    rcases h with h | ⟨h0, h1, h2, h3⟩
    · exact Or.inl h
    · exact Or.inr ⟨h0, hbad _ h1 h2 h3⟩
  · intro e s1 hget
    refine ⟨?_, ?_, ?_⟩
    · simp [todoService.Update, TodoRepository.recording, hget]
    · simp [todoService.Delete, TodoRepository.recording, hget]
    · simp [todoService.ToggleComplete, TodoRepository.recording, hget]
  · intro t s1 hget hne h1 h2 h3
    exact update_invalid_priority_journal σ repo id ureq s s1 t hget hne (hbad _ h1 h2 h3)
  · intro h
    simp [categoryService.Create, h]
  · intro e u1 hget
    refine ⟨?_, ?_⟩
    · simp [categoryService.Update, CategoryRepository.recording, hget]
    · simp [categoryService.Delete, CategoryRepository.recording, hget]
  · rcases getByID_store id db with ⟨msg, h⟩ | ⟨row, _, _, _, h⟩ <;>
      simp [NewTodoRepository, h]
  · rcases category_getByID_store cid db with ⟨e, h⟩ | ⟨c, h⟩ <;>
      simp [NewCategoryRepository, h]
  · exact (errors_on_store_leave_store q sortByName db treq id ureq creq cid
      cureq).2.2.2.2.2.2.2

/-- C13 amended, on the example store. A creation with an empty title and the
priority "urgent" fails without a repository call. No todo and no category has
identifier 999: the updates, the deletions and the toggle of 999 return the
not-found sentinels after the lookup alone, the store being the example store.
An update of todo 1 with a new title, a new description, `completed = true` and
the priority "urgent" returns `ErrInvalidPriority` after the lookup alone; the
store is the example store and todo 1 is looked up as before. A category without
name is refused without a repository call. -/
theorem no_side_effect_on_error_witness :
    (∃ err, todoService.Create (NewTodoRepository exampleEngine).recording
        { Title := "", Description := "", Priority := "urgent", DueDate := none,
          CategoryID := none } (exampleDB, []) = (.error err, (exampleDB, [])) ∧
      (err = ErrTodoTitleRequired ∨ err = ErrInvalidPriority)) ∧
    (todoService.Update (NewTodoRepository exampleEngine).recording 999
        { Title := "Buy bread", Description := "at the bakery", Completed := some true,
          Priority := "urgent", DueDate := none, CategoryID := none } (exampleDB, []) =
        (.error ErrTodoNotFound, (exampleDB, [TodoCall.GetByID 999])) ∧
      todoService.Delete (NewTodoRepository exampleEngine).recording 999 (exampleDB, []) =
        (.error ErrTodoNotFound, (exampleDB, [TodoCall.GetByID 999])) ∧
      todoService.ToggleComplete (NewTodoRepository exampleEngine).recording 999
          (exampleDB, []) =
        (.error ErrTodoNotFound, (exampleDB, [TodoCall.GetByID 999]))) ∧
    todoService.Update (NewTodoRepository exampleEngine).recording 1
        { Title := "Buy bread", Description := "at the bakery", Completed := some true,
          Priority := "urgent", DueDate := none, CategoryID := none } (exampleDB, []) =
      (.error ErrInvalidPriority, (exampleDB, [TodoCall.GetByID 1])) ∧
    categoryService.Create (NewCategoryRepository id).recording
        { Name := "", Color := "#FF0000" } (exampleDB, []) =
      (.error ErrCategoryNameRequired, (exampleDB, [])) ∧
    (categoryService.Update (NewCategoryRepository id).recording 999
        { Name := "Office", Color := "" } (exampleDB, []) =
        (.error ErrCategoryNotFound, (exampleDB, [CategoryCall.GetByID 999])) ∧
      categoryService.Delete (NewCategoryRepository id).recording 999 (exampleDB, []) =
        (.error ErrCategoryNotFound, (exampleDB, [CategoryCall.GetByID 999]))) ∧
    (todoService.Update (NewTodoRepository exampleEngine) 1
        { Title := "Buy bread", Description := "at the bakery", Completed := some true,
          Priority := "urgent", DueDate := none, CategoryID := none } exampleDB =
      (.error ErrInvalidPriority, exampleDB) ∧
      (todoService.GetByID (NewTodoRepository exampleEngine) 1 exampleDB).1 =
        (todoService.GetByID (NewTodoRepository exampleEngine) 1
          (todoService.Update (NewTodoRepository exampleEngine) 1
            { Title := "Buy bread", Description := "at the bakery", Completed := some true,
              Priority := "urgent", DueDate := none, CategoryID := none } exampleDB).2).1) :=
  ⟨(no_side_effect_on_error DB DB (NewTodoRepository exampleEngine) (NewCategoryRepository id)
      exampleEngine id exampleDB exampleDB exampleDB
      { Title := "", Description := "", Priority := "urgent", DueDate := none,
        CategoryID := none } 999
      { Title := "Buy bread", Description := "at the bakery", Completed := some true,
        Priority := "urgent", DueDate := none, CategoryID := none }
      { Name := "", Color := "#FF0000" } 999 { Name := "Office", Color := "" }).1
      (Or.inl rfl),
    (no_side_effect_on_error DB DB (NewTodoRepository exampleEngine) (NewCategoryRepository id)
      exampleEngine id exampleDB exampleDB exampleDB
      { Title := "", Description := "", Priority := "urgent", DueDate := none,
        CategoryID := none } 999
      { Title := "Buy bread", Description := "at the bakery", Completed := some true,
        Priority := "urgent", DueDate := none, CategoryID := none }
      { Name := "", Color := "#FF0000" } 999 { Name := "Office", Color := "" }).2.1
      (Error.storage "record not found") exampleDB rfl,
    (no_side_effect_on_error DB DB (NewTodoRepository exampleEngine) (NewCategoryRepository id)
      exampleEngine id exampleDB exampleDB exampleDB
      { Title := "", Description := "", Priority := "urgent", DueDate := none,
        CategoryID := none } 1
      { Title := "Buy bread", Description := "at the bakery", Completed := some true,
        Priority := "urgent", DueDate := none, CategoryID := none }
      { Name := "", Color := "#FF0000" } 999 { Name := "Office", Color := "" }).2.2.1
      exampleTodo exampleDB rfl (by decide) (by decide) (by decide) (by decide),
    (no_side_effect_on_error DB DB (NewTodoRepository exampleEngine) (NewCategoryRepository id)
      exampleEngine id exampleDB exampleDB exampleDB
      { Title := "", Description := "", Priority := "urgent", DueDate := none,
        CategoryID := none } 999
      { Title := "Buy bread", Description := "at the bakery", Completed := some true,
        Priority := "urgent", DueDate := none, CategoryID := none }
      { Name := "", Color := "#FF0000" } 999 { Name := "Office", Color := "" }).2.2.2.1 rfl,
    (no_side_effect_on_error DB DB (NewTodoRepository exampleEngine) (NewCategoryRepository id)
      exampleEngine id exampleDB exampleDB exampleDB
      { Title := "", Description := "", Priority := "urgent", DueDate := none,
        CategoryID := none } 999
      { Title := "Buy bread", Description := "at the bakery", Completed := some true,
        Priority := "urgent", DueDate := none, CategoryID := none }
      { Name := "", Color := "#FF0000" } 999 { Name := "Office", Color := "" }).2.2.2.2.1
      (Error.storage "record not found") exampleDB rfl,
    (no_side_effect_on_error DB DB (NewTodoRepository exampleEngine) (NewCategoryRepository id)
      exampleEngine id exampleDB exampleDB exampleDB
      { Title := "", Description := "", Priority := "urgent", DueDate := none,
        CategoryID := none } 1
      { Title := "Buy bread", Description := "at the bakery", Completed := some true,
        Priority := "urgent", DueDate := none, CategoryID := none }
      { Name := "", Color := "#FF0000" } 999 { Name := "Office", Color := "" }).2.2.2.2.2.2.2
      { exampleTodo with Category := none } (by decide) rfl (by decide) (by decide) (by decide)
      (by decide)⟩

/-- C14. `TodoHandler.GetAll` makes one repository call, `GetAll`, with a filter
whose page is the value of the query parameter `page` when that parses as an
integer greater than 0 and 1 otherwise (absent, empty or malformed included), and
whose limit is the value of `limit` when that parses as an integer in 1..100, 100
when it parses above 100 and 10 otherwise. When the repository answers, the
response has status 200 and reports that page and that limit; the only failure
is the repository's, answered with 500. On the relational store the status does
not depend on `page` and `limit`: it is the same for every request with the
same other query parameters. -/
theorem getAll_handler_pagination (σ : Type) (repo : TodoRepository σ) (c : Context) (s : σ)
    (q : QueryEngine) (db : DB) (c2 : Context) :
    ∃ f : TodoFilter,
      (TodoHandler.GetAll (NewTodoService repo.recording) c (s, [])).2.2 =
        [TodoCall.GetAll f] ∧
      f.Page =
        (match strconv.Atoi (c.Query "page") with
          | some p => if p ≤ 0 then 1 else p
          | none => 1) ∧
      f.Limit =
        (match strconv.Atoi (c.Query "limit") with
          | some l => if l ≤ 0 then 10 else if l > 100 then 100 else l
          | none => 10) ∧
      (∀ todos total s1, repo.GetAll f s = (.ok (todos, total), s1) →
        ∃ resp : PaginatedResponse,
          TodoHandler.GetAll (NewTodoService repo) c s =
            ({ status := 200, body := .page resp }, s1) ∧
          resp.Pagination.CurrentPage = f.Page ∧ resp.Pagination.PerPage = f.Limit) ∧
      (∀ err s1, repo.GetAll f s = (.error err, s1) →
        TodoHandler.GetAll (NewTodoService repo) c s =
          ({ status := 500, body := .error err.Error }, s1)) ∧
      ((∀ key, key ≠ "page" → key ≠ "limit" → c2.Query key = c.Query key) →
        (TodoHandler.GetAll (NewTodoService (NewTodoRepository q)) c2 db).1.status =
          (TodoHandler.GetAll (NewTodoService (NewTodoRepository q)) c db).1.status) := by
  obtain ⟨hjournal, hok, herr⟩ := getAll_handler_run σ repo c s
  refine ⟨normalizeFilter (todoFilterOfQuery c), hjournal, ?_, ?_, ?_, herr, ?_⟩
  · rw [normalizeFilter_eq, todoFilterOfQuery_eq]
    dsimp only
    cases strconv.Atoi (c.Query "page") with
    | none => rfl
    | some p => rfl
  · rw [normalizeFilter_eq, todoFilterOfQuery_eq]
    dsimp only
    cases strconv.Atoi (c.Query "limit") with
    | none => rfl
    | some l => rfl
  · intro todos total s1 h
    exact ⟨_, hok todos total s1 h, rfl, rfl⟩
  · intro hsame
    rw [getAll_handler_status_store, getAll_handler_status_store, getAll_isOk_store,
      getAll_isOk_store]
    have h1 : normalizeFilter (todoFilterOfQuery c2) =
        { normalizeFilter (todoFilterOfQuery c) with
          Page := (normalizeFilter (todoFilterOfQuery c2)).Page
          Limit := (normalizeFilter (todoFilterOfQuery c2)).Limit } := by
      rw [normalizeFilter_eq, normalizeFilter_eq, todoFilterOfQuery_eq, todoFilterOfQuery_eq]
      dsimp only
      rw [hsame "search" (by decide) (by decide), hsame "category_id" (by decide) (by decide),
        hsame "completed" (by decide) (by decide), hsame "priority" (by decide) (by decide),
        hsame "sort_by" (by decide) (by decide), hsame "sort_order" (by decide) (by decide)]
    rw [h1]
    rfl

/-- C14, on the example store: `page=2&limit=5` is answered with status 200,
current page 2 and 5 per page; `page=two&limit=` with status 200, current page 1
and 10 per page. -/
theorem getAll_handler_pagination_witness :
    (∃ resp : PaginatedResponse,
      TodoHandler.GetAll (NewTodoService (NewTodoRepository exampleEngine)) exampleContext
          exampleDB = ({ status := 200, body := .page resp }, exampleDB) ∧
      resp.Pagination.CurrentPage = 2 ∧ resp.Pagination.PerPage = 5) ∧
    (∃ resp : PaginatedResponse,
      TodoHandler.GetAll (NewTodoService (NewTodoRepository exampleEngine))
          exampleContextMalformed exampleDB = ({ status := 200, body := .page resp }, exampleDB) ∧
      resp.Pagination.CurrentPage = 1 ∧ resp.Pagination.PerPage = 10) := by
  constructor
  · obtain ⟨f, hj, hp, hl, hok, _, _⟩ :=
      getAll_handler_pagination DB (NewTodoRepository exampleEngine) exampleContext exampleDB
        exampleEngine exampleDB exampleContext
    have hf : f = normalizeFilter (todoFilterOfQuery exampleContext) := by
      rw [(getAll_handler_run DB (NewTodoRepository exampleEngine) exampleContext exampleDB).1]
        at hj
      simpa using hj.symm
    subst hf
    obtain ⟨resp, h1, h2, h3⟩ := hok _ _ exampleDB rfl
    exact ⟨resp, h1, h2.trans hp, h3.trans hl⟩
  · obtain ⟨f, hj, hp, hl, hok, _, _⟩ :=
      getAll_handler_pagination DB (NewTodoRepository exampleEngine) exampleContextMalformed
        exampleDB exampleEngine exampleDB exampleContextMalformed
    have hf : f = normalizeFilter (todoFilterOfQuery exampleContextMalformed) := by
      rw [(getAll_handler_run DB (NewTodoRepository exampleEngine) exampleContextMalformed
        exampleDB).1] at hj
      simpa using hj.symm
    subst hf
    obtain ⟨resp, h1, h2, h3⟩ := hok _ _ exampleDB rfl
    exact ⟨resp, h1, h2.trans hp, h3.trans hl⟩

/-- What `todoRepository.GetAll` matches when the search text has none of `%`,
`_` and backslash, for an engine whose `ILIKE` is `sqlILike` and whose
`ORDER BY` rearranges rows: the count is that of the rows of table `todos` that
pass `todoMatches`, whatever page and limit are, every returned todo is such a
row with its category loaded, and a row passes `todoMatches` exactly when it
meets each constraint present in the filter: the lower-cased search text is
contained in the lower-cased title or description, the category reference,
the completed flag and the priority are equal to those of the filter. -/
theorem getAll_matches_without_wildcards (q : QueryEngine) (hq : q.OrdersRows)
    (hilike : q.ilike = sqlILike) (filter : TodoFilter) (db db1 : DB) (rows : List Todo)
    (total : Int)
    (hsearch : ∀ c ∈ filter.Search.toList, c ≠ '%' ∧ c ≠ '_' ∧ c ≠ '\\')
    (h : todoRepository.GetAll q filter db = (.ok (rows, total), db1)) :
    total = ((db.todos.filter (todoMatches q filter)).length : Int) ∧
    (∀ page limit : Int,
      todoMatches q { filter with Page := page, Limit := limit } = todoMatches q filter) ∧
    (∀ r ∈ rows, ∃ row ∈ db.todos, todoMatches q filter row = true ∧
      r = db.preloadCategory row) ∧
    (∀ t : Todo, todoMatches q filter t = true ↔
      (filter.Search = "" ∨
        filter.Search.toList.map Char.toLower <:+: t.Title.toList.map Char.toLower ∨
        filter.Search.toList.map Char.toLower <:+: t.Description.toList.map Char.toLower) ∧
      (∀ cid, filter.CategoryID = some cid → t.CategoryID = some cid) ∧
      (∀ b, filter.Completed = some b → t.Completed = b) ∧
      (filter.Priority = "" ∨ t.Priority = filter.Priority)) := by
  obtain ⟨_, htotal, hrows⟩ := getAll_store q hq filter db db1 rows total h
  refine ⟨htotal, fun _ _ => rfl, hrows, ?_⟩
  intro t
  rw [todoMatches_iff, hilike, sqlILike_contains _ _ hsearch, sqlILike_contains _ _ hsearch]

/-- C15, at the failing input. On the example store the search text "_" is
contained in no title and in no description, and yet `todoRepository.GetAll`
matches both todos and counts 2: in the pattern `%_%` handed to `ILIKE` the
underscore stands for any one character. -/
theorem getAll_search_underscore :
    todoRepository.GetAll exampleEngine
        { Search := "_", CategoryID := none, Completed := none, Priority := "", Page := 1,
          Limit := 10, SortBy := "", SortOrder := "" } exampleDB =
      (.ok ([exampleTodo,
             { ID := 2, Title := "Write report", Description := "quarterly", Completed := true,
               Priority := "high", DueDate := some 20, CategoryID := none, Category := none,
               CreatedAt := 6, UpdatedAt := 7 }], 2), exampleDB) ∧
    (∀ t ∈ exampleDB.todos,
      ¬ ("_".toList.map Char.toLower <:+: t.Title.toList.map Char.toLower) ∧
      ¬ ("_".toList.map Char.toLower <:+: t.Description.toList.map Char.toLower)) := by
  decide

/-- C16, at the failing input. On the example store, while another client
deletes the todo just written, `todoService.Create` (new identifier 3) and
`todoService.Update` (identifier 1) return the storage error "record not found"
of the reload, not `ErrTodoNotFound`; the lookup of `todoService.GetByID` for a
missing identifier is answered with `ErrTodoNotFound`. -/
theorem reload_failure_is_not_translated :
    (todoService.Create (withConcurrentDelete (NewTodoRepository exampleEngine) 3)
        { Title := "Buy bread", Description := "", Priority := "", DueDate := none,
          CategoryID := none } exampleDB).1 = .error (Error.storage "record not found") ∧
    (todoService.Update (withConcurrentDelete (NewTodoRepository exampleEngine) 1) 1
        { Title := "Buy bread", Description := "", Completed := none, Priority := "",
          DueDate := none, CategoryID := none } exampleDB).1 =
      .error (Error.storage "record not found") ∧
    (todoService.GetByID (NewTodoRepository exampleEngine) 3 exampleDB).1 =
      .error ErrTodoNotFound ∧
    Error.storage "record not found" ≠ ErrTodoNotFound := by
  decide

/-- C17. `TodoHandler.GetAll` never rejects the query parameter `completed`: the
filter of its single repository call has the completed flag unset when the
parameter is absent or empty, set to true when it is exactly "true" and set to
false for every other value, and the status is 200 unless the repository itself
fails (500). On the relational store, for a value other than "" and "true", every
todo of the response is an incomplete one. -/
theorem getAll_handler_completed (σ : Type) (repo : TodoRepository σ) (c : Context) (s : σ)
    (q : QueryEngine) (db : DB) (hq : q.OrdersRows) :
    ∃ f : TodoFilter,
      (TodoHandler.GetAll (NewTodoService repo.recording) c (s, [])).2.2 =
        [TodoCall.GetAll f] ∧
      f.Completed =
        (if c.Query "completed" = "" then none
          else if c.Query "completed" = "true" then some true else some false) ∧
      ((TodoHandler.GetAll (NewTodoService repo) c s).1.status = 200 ∨
        ((TodoHandler.GetAll (NewTodoService repo) c s).1.status = 500 ∧
          ∃ err s1, repo.GetAll f s = (.error err, s1))) ∧
      (c.Query "completed" ≠ "" → c.Query "completed" ≠ "true" →
        ∀ (resp : PaginatedResponse) (db1 : DB),
          TodoHandler.GetAll (NewTodoService (NewTodoRepository q)) c db =
            ({ status := 200, body := .page resp }, db1) →
          ∀ t ∈ resp.Data, t.Completed = false) := by
  obtain ⟨hjournal, hok, herr⟩ := getAll_handler_run σ repo c s
  have hcompleted : (normalizeFilter (todoFilterOfQuery c)).Completed =
      (if c.Query "completed" = "" then none
        else if c.Query "completed" = "true" then some true else some false) := by
    rw [normalizeFilter_eq, todoFilterOfQuery_eq]
  refine ⟨normalizeFilter (todoFilterOfQuery c), hjournal, hcompleted, ?_, ?_⟩
  · rcases h : repo.GetAll (normalizeFilter (todoFilterOfQuery c)) s with
      ⟨err | ⟨todos, total⟩, s1⟩
    · right
      rw [herr err s1 h]
      exact ⟨rfl, err, s1, rfl⟩
    · left
      rw [hok todos total s1 h]
      rfl
  · intro h1 h2 resp db1 hresp t ht
    rw [if_neg h1, if_neg h2] at hcompleted
    rcases h : todoRepository.GetAll q (normalizeFilter (todoFilterOfQuery c)) db with
      ⟨err | ⟨todos, total⟩, db2⟩
    · rw [(getAll_handler_run DB (NewTodoRepository q) c db).2.2 err db2 h] at hresp
      have := congrArg (fun r => r.1.status) hresp
      simp [StatusInternalServerError] at this
    · rw [(getAll_handler_run DB (NewTodoRepository q) c db).2.1 todos total db2 h] at hresp
      have hdata : todos = resp.Data := by
        have := congrArg (fun r => r.1.body) hresp
        simp only [Body.page.injEq] at this
        rw [← this]
      rw [← hdata] at ht
      obtain ⟨_, _, hrows⟩ := getAll_store q hq _ db db2 todos total h
      obtain ⟨row, _, hmatch, hrow⟩ := hrows t ht
      rw [hrow, (preloadCategory_fields db row).2.2.2.1]
      exact ((todoMatches_iff q _ row).mp hmatch).2.2.1 false hcompleted

/-- C17, on the example store with the engine of the examples: `completed=yes`
is answered with status 200 and only incomplete todos. -/
theorem getAll_handler_completed_witness :
    exampleEngine.OrdersRows ∧
    ∃ resp : PaginatedResponse,
      TodoHandler.GetAll (NewTodoService (NewTodoRepository exampleEngine))
          exampleContextMalformed exampleDB = ({ status := 200, body := .page resp }, exampleDB) ∧
      resp.Data = [exampleTodo] ∧ ∀ t ∈ resp.Data, t.Completed = false := by
  refine ⟨exampleEngine_ordersRows, ?_⟩
  obtain ⟨f, _, _, _, hstore⟩ :=
    getAll_handler_completed DB (NewTodoRepository exampleEngine) exampleContextMalformed
      exampleDB exampleEngine exampleDB exampleEngine_ordersRows
  obtain ⟨_, hok, _⟩ :=
    getAll_handler_run DB (NewTodoRepository exampleEngine) exampleContextMalformed exampleDB
  have hrun := hok [exampleTodo] 1 exampleDB (by decide)
  exact ⟨_, hrun, rfl, hstore (by decide) (by decide) _ _ hrun⟩

end TodoApp
